import Mathlib

/-!
Verification development for the tarxx tar-writer library
(`include/tarxx.h`).  The C++ writer engine is shallowly embedded:
strings are lists of byte values (`List Nat`), 512-byte blocks are
`List Nat` of length 512, the `tarfile` object is a `TarState` record,
and every member function becomes a Lean function from state (plus a
filesystem/OS environment where the original calls into the platform
layer) to state.  C++ exceptions become an `Option Err` result paired
with the state reached at the throw point, because the mutations made
before a throw persist in the original object.
-/

namespace Tarxx

/-- 512, `tarxx::BLOCK_SIZE`. -/
def BLOCK_SIZE : Nat := 512

/-- ASCII bytes of a Lean string literal (used only to build concrete
test inputs; the model itself works on raw byte lists). -/
def asc (s : String) : List Nat := s.data.map Char.toNat

/-- `tarxx::file_type_flag` with its wire tag characters `'0'..'7'`. -/
inductive FileTypeFlag
  | regularFile
  | hardLink
  | symbolicLink
  | characterSpecialFile
  | blockSpecialFile
  | directory
  | fifo
  | contiguousFile
  deriving DecidableEq, Repr

/-- The underlying `char` value of a `file_type_flag` (ASCII code). -/
def FileTypeFlag.tag : FileTypeFlag → Nat
  | .regularFile => 48
  | .hardLink => 49
  | .symbolicLink => 50
  | .characterSpecialFile => 51
  | .blockSpecialFile => 52
  | .directory => 53
  | .fifo => 54
  | .contiguousFile => 55

/-- `tarfile::tar_type`. -/
inductive TarType
  | unixV7
  | ustar
  deriving DecidableEq, Repr

/-- `tarfile::output_mode`. -/
inductive OutputMode
  | fileOutput
  | streamOutput
  deriving DecidableEq, Repr

/-- Error kinds, following the exception sites of the source:
`invalidArgument` for `std::invalid_argument` / `std::runtime_error`
argument failures, `illegalState` for the `std::logic_error` state and
duplicate-name checks, `unsupported` for the UNIX-v7 capability check. -/
inductive Err
  | invalidArgument
  | illegalState
  | unsupported
  deriving DecidableEq, Repr

/-- `tarfile::to_octal_ascii(value, width)`.  The C++ code prints the
value in octal, zero-padded (the stray `<< std::ios::right` inserts
extra leading octal digits which the final `substr` discards again) and
keeps the last `width` characters; the net result is the `width` octal
digits of `value mod 8^width`, most significant first. -/
def toOctalAscii (value width : Nat) : List Nat :=
  (List.range width).map (fun i => 48 + value / 8 ^ (width - 1 - i) % 8)

/-- `tarfile::write_into_block(block, str, pos, len)`: copy
`min(len, |s|)` bytes of `s` into the block starting at `pos`; the rest
of the block is untouched. -/
def writeIntoBlock (b s : List Nat) (pos len : Nat) : List Nat :=
  b.take pos ++ s.take (min s.length len) ++ b.drop (pos + min s.length len)

/-- Reading the six-digit octal ASCII number in a digit list
(most significant digit first). -/
def octalRead (ds : List Nat) : Nat :=
  ds.foldl (fun acc d => acc * 8 + (d - 48)) 0

/-- The unsigned 8-bit byte sum of a block
(`chksum += (c & 0xFF)` over all 512 bytes). -/
def checksumOf (b : List Nat) : Nat :=
  (b.map (· % 256)).sum

/-- Bytes 148..155 of a block replaced by eight ASCII spaces, as done at
the start of `calc_and_write_checksum`. -/
def fillChecksumSpaces (b : List Nat) : List Nat :=
  b.take 148 ++ List.replicate 8 32 ++ b.drop 156

/-- `tarfile::calc_and_write_checksum`: space-fill bytes 148..155, sum
all 512 bytes as unsigned 8-bit values, write the sum as six octal
digits at 148..153 and a NUL at byte 155 (byte 154 keeps the space). -/
def calcAndWriteChecksum (b : List Nat) : List Nat :=
  let b1 := fillChecksumSpaces b
  let s := checksumOf b1
  (writeIntoBlock b1 (toOctalAscii s 6) 148 6).set 155 0

/-- `Filesystem::relative_path`: recursively strip a leading `/` or a
leading `..` pair, with the special cases for `""`, `"../"` and `"/"`
checked first (in the source's order).  `"/"` raises
`std::invalid_argument`.  The source recurses on `erase(0, 1)` /
`erase(0, 2)`; the same recursion is written structurally here (a
single-byte path can only hit the `"/"` check, and the one-byte /
two-byte strips become tail recursion on the matched tail). -/
def relativePath : List Nat → Except Err (List Nat)
  | [] => .ok []
  | [c] =>
    if ([c] : List Nat) = asc "/" then .error .invalidArgument
    else .ok [c]
  | c1 :: c2 :: rest =>
    if c1 :: c2 :: rest = asc "../" then .ok (asc "./")
    else if c1 = 47 then relativePath (c2 :: rest)
    else if c1 = 46 ∧ c2 = 46 then relativePath rest
    else .ok (c1 :: c2 :: rest)

/-- Index of the last occurrence of byte `c` in `l`
(`std::string::rfind` returning `npos` as `none`). -/
def rfindIdx : List Nat → Nat → Option Nat
  | [], _ => none
  | b :: bs, c =>
    match rfindIdx bs c with
    | some i => some (i + 1)
    | none => if b = c then some 0 else none

/-- `tarfile::write_name_and_prefix`: short names (≤ 100 bytes) and the
UNIX-v7 format put the name at offset 0 (silently truncated to 100);
otherwise ustar splits at the last path separator inside the first 155
bytes, the part before it going to the prefix field at offset 345. -/
def writeNameAndPfx (typ : TarType) (block name : List Nat) : List Nat :=
  if name.length ≤ 100 ∨ typ = .unixV7 then
    writeIntoBlock block name 0 100
  else
    match rfindIdx name 47 with
    | none => writeIntoBlock block name 0 100
    | some _ =>
      let pfxTrimmed := name.take 155
      match rfindIdx pfxTrimmed 47 with
      | none => writeIntoBlock block name 0 100
      | some idx =>
        let pfx := name.take idx
        let b1 := writeIntoBlock block pfx 345 155
        let splitName := name.drop (idx + 1)
        writeIntoBlock b1 splitName 0 100

/-- One filesystem object as observed through the `Filesystem`/`OS`
capabilities (`stat` data plus regular-file content and symlink target). -/
structure FSEntry where
  ftype : FileTypeFlag
  fsize : Nat
  fmtime : Int
  fmode : Nat
  flinkTarget : List Nat
  fino : Nat
  fnlink : Nat
  fowner : Nat
  fgroup : Nat
  fmajor : Nat
  fminor : Nat
  content : List Nat

/-- The host environment a `tarfile` talks to: uid/gid name lookup
(`Platform::user_name`/`group_name`), path lookup (`stat` etc.),
`realpath`, and the pre-order visit list of `iterateDirectory`. -/
structure Env where
  userName : Nat → List Nat
  groupName : Nat → List Nat
  lookup : List Nat → Option FSEntry
  realpath : List Nat → List Nat
  walk : List Nat → List (List Nat)

/-- The writer state: output mode and format, open flag, the archive's
own path (`file_name_`), the bytes written so far (`out`), the file
write position (`pos`, only meaningful in file mode), the `used_bytes`
argument of every callback invocation so far (stream mode), the
streaming cursor `stream_file_header_pos_`, the carried sub-block
`stream_block_` (only its used prefix), and the dedup structures
`stored_inos_` / `stored_files_`. -/
structure TarState where
  typ : TarType
  mode : OutputMode
  isOpen : Bool
  fileName : List Nat
  out : List Nat
  pos : Nat
  callbackSizes : List Nat
  streamHeaderPos : Int
  streamBlock : List Nat
  storedInos : List (Nat × List Nat)
  storedFiles : List (List Nat)

/-- Overwrite `data.length` bytes of `out` at position `pos`,
extending with zeros first if the file is shorter. -/
def writeBytesAt (out : List Nat) (pos : Nat) (data : List Nat) : List Nat :=
  let padded := out ++ List.replicate (pos + data.length - out.length) 0
  padded.take pos ++ data ++ padded.drop (pos + data.length)

/-- `tarfile::write` without LZ4: silently drop the block if the archive
is closed; otherwise hand it to the callback (stream mode, with
`used_bytes = data.size()`) or write it at the current file position. -/
def write (st : TarState) (b : List Nat) : TarState :=
  if ¬ st.isOpen then st
  else
    match st.mode with
    | .streamOutput =>
      { st with out := st.out ++ b, callbackSizes := st.callbackSizes ++ [b.length] }
    | .fileOutput =>
      { st with out := writeBytesAt st.out st.pos b, pos := st.pos + b.length }

/-- The value `static_cast<unsigned long long>(time)` of a signed
64-bit modification time. -/
def natOfTime (t : Int) : Nat := (t % (2 : Int) ^ 64).toNat

/-- The 512-byte block built inside `tarfile::write_header` after the
name and link name have been normalized: all numeric fields as octal
ASCII, the typeflag character (written through the integral
`write_into_block` overload, which renders the tag character's ASCII
code modulo 8 — reproducing the tag character itself), the name/prefix
split, the link-name field (only when the *raw* link name is
non-empty), the ustar-only fields, and finally the checksum. -/
def buildHeaderPre (env : Env) (typ : TarType) (storeName storeLink linkName : List Nat)
    (mode uid gid size : Nat) (time : Int) (fileType : FileTypeFlag)
    (devMajor devMinor : Nat) : List Nat :=
  let h0 : List Nat := List.replicate 512 0
  let h1 := writeIntoBlock h0 (toOctalAscii mode 8) 100 8
  let h2 := writeIntoBlock h1 (toOctalAscii uid 8) 108 8
  let h3 := writeIntoBlock h2 (toOctalAscii gid 8) 116 8
  let h4 := writeIntoBlock h3 (toOctalAscii size 12) 124 12
  let h5 := writeIntoBlock h4 (toOctalAscii (natOfTime time) 12) 136 12
  let h6 := writeIntoBlock h5 (toOctalAscii fileType.tag 1) 156 1
  let h7 := writeNameAndPfx typ h6 storeName
  let h8 := if linkName ≠ [] then writeIntoBlock h7 storeLink 157 100 else h7
  let h9 := if typ = .ustar then
      let u1 := writeIntoBlock h8 (asc "ustar") 257 6
      let u2 := writeIntoBlock u1 (env.userName uid) 265 32
      let u3 := writeIntoBlock u2 (env.groupName gid) 297 32
      let u4 := writeIntoBlock u3 (toOctalAscii devMajor 8) 329 8
      writeIntoBlock u4 (toOctalAscii devMinor 8) 337 8
    else h8
  h9

/-- The finished header block: the field image above followed by
`calc_and_write_checksum`. -/
def buildHeaderBlock (env : Env) (typ : TarType) (storeName storeLink linkName : List Nat)
    (mode uid gid size : Nat) (time : Int) (fileType : FileTypeFlag)
    (devMajor devMinor : Nat) : List Nat :=
  calcAndWriteChecksum (buildHeaderPre env typ storeName storeLink linkName
    mode uid gid size time fileType devMajor devMinor)

/-- `tarfile::write_header`.  The checks (streaming in progress,
duplicate name for regular/contiguous entries), the directory rewrites
(trailing `/`, regular-file tag under UNIX v7), the v7 capability check,
the `stored_files_` insertion, the relative-path normalization of the
name (and of the link name — but only for non-symlink entries), the
field-by-field block construction and the checksum.  The state reached
before a throw is kept, as the mutations persist in C++. -/
def writeHeader (env : Env) (st : TarState) (name0 : List Nat) (mode uid gid size : Nat)
    (time : Int) (fileType0 : FileTypeFlag) (devMajor devMinor : Nat)
    (linkName : List Nat) : TarState × Option Err :=
  if st.streamHeaderPos > -1 then (st, some .illegalState)
  else if st.storedFiles.contains name0 ∧
      (fileType0 = .regularFile ∨ fileType0 = .contiguousFile) then
    (st, some .illegalState)
  else if fileType0 = .directory ∧ name0 = [] then
    (st, some .illegalState)
  else
    let name := if fileType0 = .directory ∧ name0.getLast? ≠ some 47
      then name0 ++ [47] else name0
    let fileType := if fileType0 = .directory ∧ st.typ = .unixV7
      then .regularFile else fileType0
    if st.typ = .unixV7 ∧ fileType.tag > 50 then (st, some .unsupported)
    else
      let st1 := { st with storedFiles := name :: st.storedFiles }
      match relativePath name with
      | .error e => (st1, some e)
      | .ok storeName =>
        match (if fileType = .symbolicLink then .ok linkName
               else relativePath linkName : Except Err (List Nat)) with
        | .error e => (st1, some e)
        | .ok storeLink =>
          (write st1 (buildHeaderBlock env st.typ storeName storeLink linkName
            mode uid gid size time fileType devMajor devMinor), none)

/-- `tarfile::check_state_and_flush`: fail when the archive is closed or
a streaming entry is in progress. -/
def checkStateAndFlush (st : TarState) : Option Err :=
  if ¬ st.isOpen then some .illegalState
  else if st.streamHeaderPos ≥ 0 then some .illegalState
  else none

/-- `tarfile::add_symlink` — note that the entry's *name* is the
`link_name` argument and the link *target* is the `file_name` argument,
and that the mode is always `permission_t::all_all` (0777). -/
def addSymlink (env : Env) (st : TarState) (fileName linkName : List Nat)
    (uid gid : Nat) (time : Int) : TarState × Option Err :=
  match checkStateAndFlush st with
  | some e => (st, some e)
  | none => writeHeader env st linkName 511 uid gid 0 time .symbolicLink 0 0 fileName

/-- `tarfile::add_hardlink` (same argument convention as `add_symlink`). -/
def addHardlink (env : Env) (st : TarState) (fileName linkName : List Nat)
    (uid gid : Nat) (time : Int) : TarState × Option Err :=
  match checkStateAndFlush st with
  | some e => (st, some e)
  | none => writeHeader env st linkName 511 uid gid 0 time .hardLink 0 0 fileName

/-- `tarfile::add_character_special_file`. -/
def addCharacterSpecialFile (env : Env) (st : TarState) (name : List Nat)
    (mode uid gid size : Nat) (time : Int) (devMajor devMinor : Nat) :
    TarState × Option Err :=
  match checkStateAndFlush st with
  | some e => (st, some e)
  | none =>
    writeHeader env st name mode uid gid size time .characterSpecialFile devMajor devMinor []

/-- `tarfile::add_block_special_file`. -/
def addBlockSpecialFile (env : Env) (st : TarState) (name : List Nat)
    (mode uid gid size : Nat) (time : Int) (devMajor devMinor : Nat) :
    TarState × Option Err :=
  match checkStateAndFlush st with
  | some e => (st, some e)
  | none =>
    writeHeader env st name mode uid gid size time .blockSpecialFile devMajor devMinor []

/-- `tarfile::add_fifo`. -/
def addFifo (env : Env) (st : TarState) (name : List Nat) (mode uid gid : Nat)
    (time : Int) : TarState × Option Err :=
  match checkStateAndFlush st with
  | some e => (st, some e)
  | none => writeHeader env st name mode uid gid 0 time .fifo 0 0 []

/-- `tarfile::add_directory`. -/
def addDirectory (env : Env) (st : TarState) (dirname : List Nat) (mode uid gid : Nat)
    (time : Int) : TarState × Option Err :=
  match checkStateAndFlush st with
  | some e => (st, some e)
  | none => writeHeader env st dirname mode uid gid 0 time .directory 0 0 []

/-- `tarfile::add_file_streaming`: file-output mode only; snapshot the
current position into `stream_file_header_pos_` and emit a zero
placeholder header block. -/
def addFileStreaming (st : TarState) : TarState × Option Err :=
  if st.mode ≠ .fileOutput then (st, some .illegalState)
  else
    match checkStateAndFlush st with
    | some e => (st, some e)
    | none =>
      let st1 := { st with streamHeaderPos := (st.pos : Int) }
      (write st1 (List.replicate 512 0), none)

/-- Fuel-indexed greedy split of a byte list into full 512-byte blocks
(the fuel only serves structural recursion; one list element per
iteration is always enough since every iteration consumes 512 bytes). -/
def emitWhileF : Nat → List Nat → List (List Nat) × List Nat
  | 0, l => ([], l)
  | fuel + 1, l =>
    if 512 ≤ l.length then
      let p := emitWhileF fuel (l.drop 512)
      (l.take 512 :: p.1, p.2)
    else ([], l)

/-- Greedy split of a byte list into full 512-byte blocks plus a
remainder shorter than 512 (the `while (size >= BLOCK_SIZE)` loop of
`add_file_streaming_data`). -/
def emitWhile (l : List Nat) : List (List Nat) × List Nat :=
  emitWhileF l.length l

/-- `tarfile::add_file_streaming_data`: combine the carried sub-block
with the new data, emit every full 512-byte block, keep the remainder. -/
def addFileStreamingData (st : TarState) (data : List Nat) : TarState × Option Err :=
  if ¬ st.isOpen then (st, some .illegalState)
  else if st.streamHeaderPos < 0 then (st, some .illegalState)
  else
    let carry := st.streamBlock
    if 512 ≤ carry.length + data.length then
      let b1 := carry ++ data.take (512 - carry.length)
      let rest := data.drop (512 - carry.length)
      let st1 := write st b1
      let p := emitWhile rest
      let st2 := p.1.foldl write st1
      ({ st2 with streamBlock := p.2 }, none)
    else ({ st with streamBlock := carry ++ data }, none)

/-- `tarfile::stream_file_complete`: flush a zero-padded final partial
block, remember the current position, seek to the placeholder, reset
`stream_file_header_pos_` to −1 (before the header is written!), write
the real header, and seek back. -/
def streamFileComplete (env : Env) (st : TarState) (filename : List Nat)
    (mode uid gid size : Nat) (time : Int) : TarState × Option Err :=
  if st.streamHeaderPos < 0 then (st, some .illegalState)
  else
    let st1 := if 0 < st.streamBlock.length then
        write { st with streamBlock := [] }
          (st.streamBlock ++ List.replicate (512 - st.streamBlock.length) 0)
      else st
    let streamPos := st1.pos
    let st2 := { st1 with pos := st.streamHeaderPos.toNat, streamHeaderPos := -1 }
    match writeHeader env st2 filename mode uid gid size time .regularFile 0 0 [] with
    | (st3, some e) => (st3, some e)
    | (st3, none) => ({ st3 with pos := streamPos }, none)

/-- The read loop of `tarfile::write_regular_file_const_size`: while the
stream is good and `processed < expected`, read up to 512 bytes, let
`write_size` be `read` if still below `expected` and the *overshoot*
`processed' − expected` otherwise, zero the block from `write_size` on,
and emit it.  Returns the emitted blocks and the final `processed`
count.  `good` models `infile.good()` — it turns false once a read
extracts fewer than 512 bytes. -/
def constSizeLoopF : Nat → List Nat → Nat → Nat → Bool → List (List Nat) × Nat
  | 0, _, _, processed, _ => ([], processed)
  | fuel + 1, file, expected, processed, good =>
    if good = true ∧ processed < expected then
      let readBytes := file.take 512
      let rd := readBytes.length
      let processed' := processed + rd
      let writeSize := if processed' < expected then rd else processed' - expected
      let block := readBytes.take writeSize ++ List.replicate (512 - writeSize) 0
      let p := constSizeLoopF fuel (file.drop 512) expected processed' (rd = 512)
      (block :: p.1, p.2)
    else ([], processed)

def constSizeLoop (file : List Nat) (expected processed : Nat) (good : Bool) :
    List (List Nat) × Nat :=
  constSizeLoopF (file.length + 1) file expected processed good

/-- The zero-padding loop at the end of
`tarfile::write_regular_file_const_size`: emit all-zero blocks until
`processed` reaches `expected`, counting 512 per block. -/
def padLoopF : Nat → Nat → Nat → List (List Nat)
  | 0, _, _ => []
  | fuel + 1, processed, expected =>
    if processed < expected then
      List.replicate 512 0 :: padLoopF fuel (processed + 512) expected
    else []

def padLoop (processed expected : Nat) : List (List Nat) :=
  padLoopF (expected - processed) processed expected

/-- `tarfile::write_regular_file_const_size` as the list of 512-byte
blocks it emits for a source file holding `file` and a declared size of
`expected` bytes. -/
def writeRegularFileConstSize (file : List Nat) (expected : Nat) : List (List Nat) :=
  let p := constSizeLoop file expected 0 true
  p.1 ++ padLoop p.2 expected

/-- `tarfile::write_regular_file_dynamic_size`: read until EOF, emit
each (zero-padded) block, and return the blocks together with the byte
count actually read. -/
def dynSizeLoopF : Nat → List Nat → Nat → Bool → List (List Nat) × Nat
  | 0, _, processed, _ => ([], processed)
  | fuel + 1, file, processed, good =>
    if good then
      let readBytes := file.take 512
      let rd := readBytes.length
      if rd = 0 then ([], processed)
      else
        let block := readBytes ++ List.replicate (512 - rd) 0
        let p := dynSizeLoopF fuel (file.drop 512) (processed + rd) (rd = 512)
        (block :: p.1, p.2)
    else ([], processed)

def dynSizeLoop (file : List Nat) (processed : Nat) (good : Bool) :
    List (List Nat) × Nat :=
  dynSizeLoopF (file.length + 1) file processed good

/-- `PosixOS::file_equivalent_present`: only files with more than one
hard link are looked up in the inode map. -/
def fileEquivalentPresent (e : FSEntry) (stored : List (Nat × List Nat)) :
    Option (List Nat) :=
  if 1 < e.fnlink then (stored.find? (fun q => q.1 = e.fino)).map (·.2)
  else none

/-- `stored_inos_.insert(...)`: `std::unordered_map::insert` keeps the
existing mapping if the key is already present. -/
def insertIno (stored : List (Nat × List Nat)) (ino : Nat) (p : List Nat) :
    List (Nat × List Nat) :=
  if (stored.find? (fun q => q.1 = ino)).isSome then stored else stored ++ [(ino, p)]

/-- `tarfile::is_file_type_supported`. -/
def isFileTypeSupported (t : TarType) (f : FileTypeFlag) : Bool :=
  match t with
  | .unixV7 => f = .directory ∨ f.tag ≤ 50
  | .ustar => true

/-- `tarfile::read_from_filesystem_write_to_tar`: the existence and
self-archiving checks, optional symlink resolution, hard-link demotion
via `file_equivalent_present`, the per-type metadata switch (symlinks
get mode 0777 and the link target; the inode is recorded under the
*resolved source path*), the capability filter (unsupported kinds are
silently skipped), and finally either the deferred-header
(dynamic-size, file mode) or the direct-header (const-size) write
path. -/
def readFromFilesystemWriteToTar (env : Env) (st : TarState)
    (sourcePath targetPath : List Nat) (readSymlinks : Bool) : TarState × Option Err :=
  match env.lookup sourcePath with
  | none => (st, some .invalidArgument)
  | some e0 =>
    if sourcePath = st.fileName then (st, some .invalidArgument)
    else
      let resolved := if e0.ftype = .symbolicLink ∧ readSymlinks then
          env.realpath sourcePath else sourcePath
      match env.lookup resolved with
      | none => (st, some .invalidArgument)
      | some eR =>
        let ftype1 := if e0.ftype = .symbolicLink ∧ readSymlinks then eR.ftype else e0.ftype
        let uid := eR.fowner
        let gid := eR.fgroup
        let deferHeader := ftype1 = .regularFile ∧ st.mode = .fileOutput
        let dedup : FileTypeFlag × List Nat :=
          if ftype1 = .regularFile ∨ ftype1 = .hardLink then
            match fileEquivalentPresent eR st.storedInos with
            | some nm => (.hardLink, nm)
            | none => (ftype1, [])
          else (ftype1, [])
        let ftype2 := dedup.1
        let size := if ftype2 = .regularFile then eR.fsize else 0
        let devMajor := if ftype2 = .characterSpecialFile ∨ ftype2 = .blockSpecialFile
          then eR.fmajor else 0
        let devMinor := if ftype2 = .characterSpecialFile ∨ ftype2 = .blockSpecialFile
          then eR.fminor else 0
        let mode1 := if ftype2 = .symbolicLink then 511 else eR.fmode
        let linkName := if ftype2 = .symbolicLink then eR.flinkTarget else dedup.2
        if ftype2 = .contiguousFile then (st, some .invalidArgument)
        else if ¬ isFileTypeSupported st.typ ftype2 then (st, none)
        else
          let st1 := { st with storedInos := insertIno st.storedInos eR.fino resolved }
          if deferHeader then
            let headerPos := st1.pos
            let st2 := write st1 (List.replicate 512 0)
            let dataRes : TarState × Nat :=
              if ftype2 = .regularFile then
                let p := dynSizeLoop eR.content 0 true
                (p.1.foldl write st2, p.2)
              else (st2, size)
            let dataPos := dataRes.1.pos
            let st4 := { dataRes.1 with pos := headerPos }
            match writeHeader env st4 targetPath mode1 uid gid dataRes.2 eR.fmtime
                ftype2 devMajor devMinor linkName with
            | (st5, some err) => (st5, some err)
            | (st5, none) => ({ st5 with pos := dataPos }, none)
          else
            match writeHeader env st1 targetPath mode1 uid gid size eR.fmtime
                ftype2 devMajor devMinor linkName with
            | (st2, some err) => (st2, some err)
            | (st2, none) =>
              if ftype2 = .regularFile then
                ((writeRegularFileConstSize eR.content size).foldl write st2, none)
              else (st2, none)

/-- `tarfile::add_from_filesystem(filename, read_symlinks)`. -/
def addFromFilesystem1 (env : Env) (st : TarState) (path : List Nat)
    (readSymlinks : Bool) : TarState × Option Err :=
  match checkStateAndFlush st with
  | some e => (st, some e)
  | none => readFromFilesystemWriteToTar env st path path readSymlinks

/-- `tarfile::add_from_filesystem(source, target, read_symlinks)`,
with its target-path validations performed *before* the state check. -/
def addFromFilesystem2 (env : Env) (st : TarState) (sourcePath targetPath : List Nat)
    (readSymlinks : Bool) : TarState × Option Err :=
  if (asc "../") <:+: targetPath then (st, some .invalidArgument)
  else if (asc "/..") <:+: targetPath then (st, some .invalidArgument)
  else if targetPath = asc ".." then (st, some .invalidArgument)
  else if targetPath = [] then (st, some .invalidArgument)
  else
    match env.lookup sourcePath with
    | none => (st, some .invalidArgument)
    | some e0 =>
      if e0.ftype ≠ .directory ∧ targetPath.getLast? = some 47 then
        (st, some .invalidArgument)
      else
        match checkStateAndFlush st with
        | some e => (st, some e)
        | none => readFromFilesystemWriteToTar env st sourcePath targetPath readSymlinks

/-- Run an action over a visit list, stopping at the first exception
(the callback of `iterateDirectory` propagates it). -/
def runAll (st : TarState) (ps : List (List Nat))
    (f : TarState → List Nat → TarState × Option Err) : TarState × Option Err :=
  match ps with
  | [] => (st, none)
  | p :: rest =>
    match f st p with
    | (st1, some e) => (st1, some e)
    | (st1, none) => runAll st1 rest f

/-- `tarfile::add_from_filesystem_recursive(path, read_symlinks)`. -/
def addFromFilesystemRecursive1 (env : Env) (st : TarState) (path : List Nat)
    (readSymlinks : Bool) : TarState × Option Err :=
  match env.lookup path with
  | none => (st, some .invalidArgument)
  | some e0 =>
    if e0.ftype ≠ .directory then addFromFilesystem1 env st path readSymlinks
    else runAll st (env.walk path) (fun s p => addFromFilesystem1 env s p readSymlinks)

/-- `tarfile::add_from_filesystem_recursive(source, target,
read_symlinks)`: target validations, trailing-slash strip, then either a
single add or a walk with the source prefix of each visited path
replaced by the target. -/
def addFromFilesystemRecursive2 (env : Env) (st : TarState)
    (sourcePath targetPath : List Nat) (readSymlinks : Bool) : TarState × Option Err :=
  if (asc "../") <:+: targetPath then (st, some .invalidArgument)
  else if (asc "/..") <:+: targetPath then (st, some .invalidArgument)
  else if targetPath = asc ".." then (st, some .invalidArgument)
  else if targetPath = [] then (st, some .invalidArgument)
  else
    let target1 := if targetPath.getLast? = some 47 then targetPath.dropLast else targetPath
    match env.lookup sourcePath with
    | none => (st, some .invalidArgument)
    | some e0 =>
      if e0.ftype ≠ .directory then
        addFromFilesystem2 env st sourcePath target1 readSymlinks
      else
        runAll st (env.walk sourcePath)
          (fun s p => addFromFilesystem2 env s p (target1 ++ p.drop sourcePath.length) readSymlinks)

/-- `tarfile::finish`: the two all-zero end-of-archive blocks. -/
def finish (st : TarState) : TarState :=
  write (write st (List.replicate 512 0)) (List.replicate 512 0)

/-- `tarfile::close`: finalize and mark closed; idempotent. -/
def close (st : TarState) : TarState :=
  if st.isOpen then { finish st with isOpen := false } else st

/-- A freshly constructed file-mode writer. -/
def initFile (typ : TarType) (filename : List Nat) : TarState :=
  { typ := typ, mode := .fileOutput, isOpen := true, fileName := filename, out := [],
    pos := 0, callbackSizes := [], streamHeaderPos := -1, streamBlock := [],
    storedInos := [], storedFiles := [] }

/-- A freshly constructed callback-mode writer. -/
def initStream (typ : TarType) : TarState :=
  { typ := typ, mode := .streamOutput, isOpen := true, fileName := [], out := [],
    pos := 0, callbackSizes := [], streamHeaderPos := -1, streamBlock := [],
    storedInos := [], storedFiles := [] }

/-- The callback sizes produced by one `tarfile::write_lz4_data` call in
stream-output mode when the LZ4 output buffer holds `bufPos` bytes: the
buffer is drained in chunks of `min(bufPos, 512)`, so the final chunk —
and hence the callback's `used_bytes` — can be shorter than 512. -/
def writeLz4DataSizesF : Nat → Nat → List Nat
  | 0, _ => []
  | fuel + 1, bufPos =>
    if bufPos = 0 then []
    else
      let c := min bufPos 512
      c :: writeLz4DataSizesF fuel (bufPos - c)

def writeLz4DataSizes (bufPos : Nat) : List Nat :=
  writeLz4DataSizesF bufPos bufPos

/-- The bytes of a block region: `len` bytes starting at `pos`. -/
def slice (b : List Nat) (pos len : Nat) : List Nat :=
  (b.drop pos).take len

/-- A byte sequence zero-padded to the next multiple of 512 (the
declared payload layout of a regular-file entry). -/
def padTo512 (l : List Nat) : List Nat :=
  l ++ List.replicate ((512 - l.length % 512) % 512) 0

/-- One invocation of the public admission / streaming / close API. -/
inductive ApiCall
  | fromFs1 (path : List Nat) (rs : Bool)
  | fromFs2 (src tgt : List Nat) (rs : Bool)
  | fromFsRec1 (path : List Nat) (rs : Bool)
  | fromFsRec2 (src tgt : List Nat) (rs : Bool)
  | symlinkCall (f l : List Nat) (uid gid : Nat) (t : Int)
  | hardlinkCall (f l : List Nat) (uid gid : Nat) (t : Int)
  | charDev (n : List Nat) (m u g sz : Nat) (t : Int) (ma mi : Nat)
  | blockDev (n : List Nat) (m u g sz : Nat) (t : Int) (ma mi : Nat)
  | fifoCall (n : List Nat) (m u g : Nat) (t : Int)
  | dirCall (n : List Nat) (m u g : Nat) (t : Int)
  | fileStreaming
  | fileStreamingData (d : List Nat)
  | fileComplete (n : List Nat) (m u g sz : Nat) (t : Int)
  | closeCall

/-- Dispatch an `ApiCall` to the corresponding member function. -/
def applyCall (env : Env) (st : TarState) : ApiCall → TarState × Option Err
  | .fromFs1 p rs => addFromFilesystem1 env st p rs
  | .fromFs2 s t rs => addFromFilesystem2 env st s t rs
  | .fromFsRec1 p rs => addFromFilesystemRecursive1 env st p rs
  | .fromFsRec2 s t rs => addFromFilesystemRecursive2 env st s t rs
  | .symlinkCall f l u g t => addSymlink env st f l u g t
  | .hardlinkCall f l u g t => addHardlink env st f l u g t
  | .charDev n m u g sz t ma mi => addCharacterSpecialFile env st n m u g sz t ma mi
  | .blockDev n m u g sz t ma mi => addBlockSpecialFile env st n m u g sz t ma mi
  | .fifoCall n m u g t => addFifo env st n m u g t
  | .dirCall n m u g t => addDirectory env st n m u g t
  | .fileStreaming => addFileStreaming st
  | .fileStreamingData d => addFileStreamingData st d
  | .fileComplete n m u g sz t => streamFileComplete env st n m u g sz t
  | .closeCall => (close st, none)

/-- The calls that the claim exempts while a streaming entry is in
progress. -/
def ApiCall.isStreamingData : ApiCall → Bool
  | .fileStreamingData _ => true
  | .fileComplete .. => true
  | .closeCall => true
  | _ => false

/-- Whether an `ApiCall` is an admission call (close is not). -/
def ApiCall.isAdmission : ApiCall → Bool
  | .closeCall => false
  | _ => true

/-- The argument validations that the two-argument `add_from_filesystem`
variants perform *before* the writer-state check: they hold when those
validations cannot fire, so that the state check is the first thing that
can fail.  For the other calls there is nothing before the state check. -/
def argsOk (env : Env) : ApiCall → Prop
  | .fromFs2 src tgt _ =>
    ¬ (asc "../") <:+: tgt ∧ ¬ (asc "/..") <:+: tgt ∧ tgt ≠ asc ".." ∧ tgt ≠ [] ∧
    ∃ e, env.lookup src = some e ∧ ¬ (e.ftype ≠ .directory ∧ tgt.getLast? = some 47)
  | .fromFsRec1 p _ =>
    ∃ e, env.lookup p = some e ∧
      (e.ftype = .directory → ∃ q rest, env.walk p = q :: rest)
  | .fromFsRec2 src tgt _ =>
    ¬ (asc "../") <:+: tgt ∧ ¬ (asc "/..") <:+: tgt ∧ tgt ≠ asc ".." ∧ tgt ≠ [] ∧
    ∃ e, env.lookup src = some e ∧
      (e.ftype ≠ .directory →
        (¬ (asc "../") <:+: (if tgt.getLast? = some 47 then tgt.dropLast else tgt) ∧
         ¬ (asc "/..") <:+: (if tgt.getLast? = some 47 then tgt.dropLast else tgt) ∧
         (if tgt.getLast? = some 47 then tgt.dropLast else tgt) ≠ asc ".." ∧
         (if tgt.getLast? = some 47 then tgt.dropLast else tgt) ≠ [] ∧
         ¬ (e.ftype ≠ .directory ∧
            (if tgt.getLast? = some 47 then tgt.dropLast else tgt).getLast? = some 47))) ∧
      (e.ftype = .directory →
        ∃ q rest, env.walk src = q :: rest ∧
          (¬ (asc "../") <:+:
              ((if tgt.getLast? = some 47 then tgt.dropLast else tgt) ++
                q.drop src.length) ∧
           ¬ (asc "/..") <:+:
              ((if tgt.getLast? = some 47 then tgt.dropLast else tgt) ++
                q.drop src.length) ∧
           ((if tgt.getLast? = some 47 then tgt.dropLast else tgt) ++ q.drop src.length)
              ≠ asc ".." ∧
           ((if tgt.getLast? = some 47 then tgt.dropLast else tgt) ++ q.drop src.length)
              ≠ [] ∧
           ∃ eq2, env.lookup q = some eq2 ∧
             ¬ (eq2.ftype ≠ .directory ∧
                ((if tgt.getLast? = some 47 then tgt.dropLast else tgt) ++
                  q.drop src.length).getLast? = some 47)))
  | _ => True

/-- The ghost "a streaming entry is in progress" flag: set by a
successful `add_file_streaming`, cleared by any `stream_file_complete`
call made while the writer was in the streaming state (successful or
not — the source clears `stream_file_header_pos_` before building the
real header). -/
def inStreamingAfter (g : Bool) (st : TarState) (c : ApiCall) (err : Option Err) : Bool :=
  match c with
  | .fileStreaming => if err = none then true else g
  | .fileComplete .. => if 0 ≤ st.streamHeaderPos then false else g
  | _ => g

/-- Writer states reachable through the public API from a fresh writer,
together with the ghost streaming flag. -/
inductive Reach (env : Env) : TarState → Bool → Prop
  | initF (typ : TarType) (fn : List Nat) : Reach env (initFile typ fn) false
  | initS (typ : TarType) : Reach env (initStream typ) false
  | step (st : TarState) (g : Bool) (c : ApiCall) : Reach env st g →
      Reach env (applyCall env st c).1 (inStreamingAfter g st c (applyCall env st c).2)

/-- A host environment with no filesystem, used for concrete runs that
never touch the filesystem. -/
def envEmpty : Env :=
  { userName := fun u => asc (toString u), groupName := fun g => asc (toString g),
    lookup := fun _ => none, realpath := fun p => p, walk := fun p => [p] }

/-- The filesystem entry of the concrete hard-link scenarios: a regular
file of 10 bytes at inode 7, with `nlink` hard links on the host. -/
def fsFileA (nlink : Nat) : FSEntry :=
  { ftype := .regularFile, fsize := 10, fmtime := 5, fmode := 420,
    flinkTarget := [], fino := 7, fnlink := nlink, fowner := 0, fgroup := 0,
    fmajor := 0, fminor := 0, content := asc "0123456789" }

/-- A host environment whose filesystem holds the single file `/a`
(with a configurable hard-link count). -/
def envFileA (nlink : Nat) : Env :=
  { envEmpty with
    lookup := fun p => if p = asc "/a" then some (fsFileA nlink) else none }

/-- A host environment holding one symbolic link `/s` pointing at
`/etc/passwd`, whose stat mode is 0644 — used to show the mode is
discarded for symlink entries. -/
def envSymlinkS : Env :=
  { envEmpty with
    lookup := fun p => if p = asc "/s" then some
      { ftype := .symbolicLink, fsize := 0, fmtime := 9, fmode := 420,
        flinkTarget := asc "/etc/passwd", fino := 11, fnlink := 1, fowner := 3,
        fgroup := 4, fmajor := 0, fminor := 0, content := [] }
      else none }

/-- A fresh ustar file writer that has already stored an entry under the
raw name `a` — the duplicate-name scenarios start from it. -/
def stDupA : TarState :=
  { initFile .ustar (asc "t.tar") with storedFiles := [asc "a"] }

/-- First admission of the hard-link scenario: `add_from_filesystem("/a")`
on a fresh ustar callback-mode writer, where `/a` has `nlink` hard links
on the host. -/
def addATwice1 (nlink : Nat) : TarState × Option Err :=
  addFromFilesystem1 (envFileA nlink) (initStream .ustar) (asc "/a") false

/-- Second admission of the same path `/a`. -/
def addATwice2 (nlink : Nat) : TarState × Option Err :=
  addFromFilesystem1 (envFileA nlink) (addATwice1 nlink).1 (asc "/a") false

/-- Feed a list of chunks through `add_file_streaming_data`, stopping at
the first exception. -/
def feedAll (st : TarState) (cs : List (List Nat)) : TarState × Option Err :=
  match cs with
  | [] => (st, none)
  | c :: rest =>
    match addFileStreamingData st c with
    | (st1, some e) => (st1, some e)
    | (st1, none) => feedAll st1 rest

/-- The streaming side of the equivalence claim: a fresh file-mode
writer, `add_file_streaming`, one `add_file_streaming_data` call per
chunk, and a final `stream_file_complete`. -/
def streamScenario (env : Env) (cs : List (List Nat)) (fn : List Nat)
    (m u g sz : Nat) (t : Int) : TarState × Option Err :=
  match addFileStreaming (initFile .ustar (asc "t.tar")) with
  | (s1, some e) => (s1, some e)
  | (s1, none) =>
    match feedAll s1 cs with
    | (s2, some e) => (s2, some e)
    | (s2, none) => streamFileComplete env s2 fn m u g sz t


/-! ## Reachable-state invariant machinery -/

/-- All `used_bytes` values passed to the callback so far were 512. -/
def sizesOk (st : TarState) : Prop := ∀ s ∈ st.callbackSizes, s = 512

/-- The quiet part of a writer step: the callback contract is preserved
(every write passed a full block), and the mode, streaming cursor, and
carried sub-block are untouched. -/
def Pres (st st' : TarState) : Prop :=
  (sizesOk st → sizesOk st') ∧ st'.mode = st.mode ∧
  st'.streamHeaderPos = st.streamHeaderPos ∧ st'.streamBlock = st.streamBlock

/-- The None-mode callback invariant carried through the induction. -/
def StInv (st : TarState) : Prop :=
  sizesOk st ∧ (st.mode = .streamOutput → st.streamHeaderPos < 0) ∧
  st.streamBlock.length < 512

/-- A concrete writer state inside a streaming entry: a fresh file-mode
writer after a successful `add_file_streaming`. -/
def stC4 : TarState :=
  (applyCall envEmpty (initFile .ustar (asc "t.tar")) .fileStreaming).1

/-- A concrete callback-mode writer state after one `add_symlink`
admission (one emitted header block). -/
def stC8 : TarState :=
  (applyCall envEmpty (initStream .ustar) (.symlinkCall (asc "tg") (asc "ln") 0 0 0)).1

/-! ## Helper lemmas: blocks, fields, octal encoding -/

theorem length_toOctalAscii (v w : Nat) : (toOctalAscii v w).length = w := by
  simp [toOctalAscii]

theorem length_writeIntoBlock (b s : List Nat) (pos len : Nat)
    (h : pos + min s.length len ≤ b.length) :
    (writeIntoBlock b s pos len).length = b.length := by
  simp only [writeIntoBlock, List.length_append, List.length_take, List.length_drop]
  omega

theorem getElem?_writeIntoBlock (b s : List Nat) (pos len i : Nat)
    (h : pos + min s.length len ≤ b.length) :
    (writeIntoBlock b s pos len)[i]? =
      if pos ≤ i ∧ i < pos + min s.length len then s[i - pos]? else b[i]? := by
  unfold writeIntoBlock
  have h1 : (b.take pos).length = pos := by simp; omega
  have h2 : (s.take (min s.length len)).length = min s.length len := by simp
  rw [List.append_assoc, List.getElem?_append, List.getElem?_append]
  rw [h1, h2]
  rcases Nat.lt_or_ge i pos with hi | hi
  · simp only [if_pos hi, List.getElem?_take, if_pos hi]
    simp [hi, Nat.not_le.mpr hi]
  · rw [if_neg (Nat.not_lt.mpr hi)]
    rcases Nat.lt_or_ge (i - pos) (min s.length len) with hj | hj
    · rw [if_pos hj]
      rw [List.getElem?_take, if_pos hj]
      simp only [hi, true_and]
      rw [if_pos (by omega)]
    · rw [if_neg (Nat.not_lt.mpr hj), List.getElem?_drop]
      rw [if_neg (by omega)]
      congr 1
      omega

/-- Bytes outside the written region are untouched
(`len` bound version, usable without knowing `|s|`). -/
theorem getElem?_writeIntoBlock_out (b s : List Nat) (pos len i : Nat)
    (h : pos + len ≤ b.length) (hi : i < pos ∨ pos + len ≤ i) :
    (writeIntoBlock b s pos len)[i]? = b[i]? := by
  have hm : min s.length len ≤ len := Nat.min_le_right _ _
  rw [getElem?_writeIntoBlock b s pos len i (by omega)]
  rw [if_neg (by omega)]

/-- Bytes outside the actually-copied region (`min |s| len` wide) are
untouched. -/
theorem getElem?_writeIntoBlock_outMin (b s : List Nat) (pos len i : Nat)
    (h : pos + min s.length len ≤ b.length)
    (hi : i < pos ∨ pos + min s.length len ≤ i) :
    (writeIntoBlock b s pos len)[i]? = b[i]? := by
  rw [getElem?_writeIntoBlock b s pos len i h, if_neg (by omega)]

/-- Bytes inside the copied region come from `s`. -/
theorem getElem?_writeIntoBlock_in (b s : List Nat) (pos len j : Nat)
    (h : pos + min s.length len ≤ b.length) (hj : j < min s.length len) :
    (writeIntoBlock b s pos len)[pos + j]? = s[j]? := by
  rw [getElem?_writeIntoBlock b s pos len _ h, if_pos (by omega)]
  congr 1
  omega

theorem slice_getElem? (b : List Nat) (pos len j : Nat) :
    (slice b pos len)[j]? = if j < len then b[pos + j]? else none := by
  simp [slice, List.getElem?_take, List.getElem?_drop]

theorem slice_eq_of_pointwise (b₁ b₂ : List Nat) (pos len : Nat)
    (h : ∀ j, j < len → b₁[pos + j]? = b₂[pos + j]?) :
    slice b₁ pos len = slice b₂ pos len := by
  apply List.ext_getElem?
  intro j
  rw [slice_getElem?, slice_getElem?]
  split
  · rename_i hj
    exact h j hj
  · rfl

theorem getElem?_replicate_zero (n i : Nat) (hi : i < n) :
    (List.replicate n (0 : Nat))[i]? = some 0 := by
  simp [List.getElem?_replicate, hi]

theorem toOctalAscii_succ (v w : Nat) :
    toOctalAscii v (w + 1) = (48 + v / 8 ^ w % 8) :: toOctalAscii (v % 8 ^ w) w := by
  unfold toOctalAscii
  rw [List.range_succ_eq_map, List.map_cons]
  refine List.cons_eq_cons.mpr ⟨by simp, ?_⟩
  rw [List.map_map]
  apply List.map_congr_left
  intro i hi
  have hi' : i < w := List.mem_range.mp hi
  simp only [Function.comp_apply]
  rw [show w + 1 - 1 - (i + 1) = w - 1 - i from by omega]
  set k := w - 1 - i with hk
  have hw : w = k + (i + 1) := by omega
  congr 1
  rw [hw, pow_add, Nat.mod_mul_right_div_self]
  exact (Nat.mod_mod_of_dvd _ (dvd_pow_self 8 (by omega))).symm

theorem octalRead_foldl_acc (ds : List Nat) (acc : Nat) :
    ds.foldl (fun a d => a * 8 + (d - 48)) acc =
      acc * 8 ^ ds.length + ds.foldl (fun a d => a * 8 + (d - 48)) 0 := by
  induction ds generalizing acc with
  | nil => simp
  | cons d ds ih =>
    simp only [List.foldl_cons, List.length_cons]
    rw [ih (acc * 8 + (d - 48)), ih (0 * 8 + (d - 48))]
    ring

theorem octalRead_cons (d : Nat) (ds : List Nat) :
    octalRead (d :: ds) = (d - 48) * 8 ^ ds.length + octalRead ds := by
  unfold octalRead
  simp only [List.foldl_cons]
  rw [octalRead_foldl_acc]
  simp

/-- Octal encode/decode round trip for values that fit in the field. -/
theorem octalRead_toOctalAscii (w v : Nat) (hv : v < 8 ^ w) :
    octalRead (toOctalAscii v w) = v := by
  induction w generalizing v with
  | zero =>
    interval_cases v
    simp [toOctalAscii, octalRead]
  | succ w ih =>
    rw [toOctalAscii_succ, octalRead_cons, length_toOctalAscii]
    rw [ih (v % 8 ^ w) (Nat.mod_lt _ (Nat.pos_pow_of_pos w (by norm_num)))]
    have hd : v / 8 ^ w < 8 := Nat.div_lt_of_lt_mul (by rw [← pow_succ]; exact hv)
    rw [Nat.mod_eq_of_lt hd]
    rw [Nat.add_sub_cancel_left]
    rw [Nat.add_comm]
    exact Nat.mod_add_div' v (8 ^ w)

/-- The unsigned byte sum of a 512-byte block fits in six octal digits. -/
theorem checksumOf_lt (b : List Nat) (hb : b.length = 512) : checksumOf b < 8 ^ 6 := by
  unfold checksumOf
  have hle : (b.map (· % 256)).sum ≤ (b.map (· % 256)).length * 255 := by
    have := List.sum_le_card_nsmul (b.map (· % 256)) 255 (by
      intro x hx
      rcases List.mem_map.mp hx with ⟨y, _, rfl⟩
      omega)
    simpa using this
  rw [List.length_map, hb] at hle
  omega

theorem length_fillChecksumSpaces (b : List Nat) (hb : 156 ≤ b.length) :
    (fillChecksumSpaces b).length = b.length := by
  simp only [fillChecksumSpaces, List.length_append, List.length_take,
    List.length_replicate, List.length_drop]
  omega

theorem getElem?_fillChecksumSpaces (b : List Nat) (i : Nat) (hb : 156 ≤ b.length) :
    (fillChecksumSpaces b)[i]? = if 148 ≤ i ∧ i < 156 then some 32 else b[i]? := by
  unfold fillChecksumSpaces
  have h1 : (b.take 148).length = 148 := by simp; omega
  rw [List.append_assoc, List.getElem?_append, List.getElem?_append, h1]
  simp only [List.length_replicate]
  rcases Nat.lt_or_ge i 148 with hi | hi
  · rw [if_pos hi, List.getElem?_take, if_pos hi, if_neg (by omega)]
  · rw [if_neg (Nat.not_lt.mpr hi)]
    rcases Nat.lt_or_ge i 156 with hi2 | hi2
    · rw [if_pos (by omega), List.getElem?_replicate, if_pos (by omega),
        if_pos (by omega)]
    · rw [if_neg (by omega), List.getElem?_drop, if_neg (by omega)]
      rw [show 148 + 8 + (i - 148 - 8) = 156 + (i - 156) from by omega]
      rw [show (156 : Nat) + (i - 156) = i from by omega]

theorem length_calcAndWriteChecksum (b : List Nat) (hb : b.length = 512) :
    (calcAndWriteChecksum b).length = 512 := by
  simp only [calcAndWriteChecksum]
  rw [List.length_set, length_writeIntoBlock]
  · rw [length_fillChecksumSpaces b (by omega)]
    exact hb
  · rw [length_fillChecksumSpaces b (by omega), hb, length_toOctalAscii]
    norm_num

/-- The three checksum-field facts of every block that passes through
`calc_and_write_checksum`: the six octal digits at 148..153 decode to
the space-filled byte sum, byte 154 is an ASCII space and byte 155 is
NUL. -/
theorem calcAndWriteChecksum_spec (b : List Nat) (hb : b.length = 512) :
    octalRead (slice (calcAndWriteChecksum b) 148 6)
        = checksumOf (fillChecksumSpaces (calcAndWriteChecksum b))
    ∧ (calcAndWriteChecksum b)[154]? = some 32
    ∧ (calcAndWriteChecksum b)[155]? = some 0 := by
  have hb1 : (fillChecksumSpaces b).length = 512 := by
    rw [length_fillChecksumSpaces b (by omega)]; exact hb
  have hsum : checksumOf (fillChecksumSpaces b) < 8 ^ 6 :=
    checksumOf_lt _ hb1
  have hoct : (toOctalAscii (checksumOf (fillChecksumSpaces b)) 6).length = 6 :=
    length_toOctalAscii _ _
  have hmin : min (toOctalAscii (checksumOf (fillChecksumSpaces b)) 6).length 6 = 6 := by
    simp [hoct]
  have hWlen : (writeIntoBlock (fillChecksumSpaces b)
      (toOctalAscii (checksumOf (fillChecksumSpaces b)) 6) 148 6).length = 512 := by
    rw [length_writeIntoBlock _ _ _ _ (by rw [hmin]; omega)]
    exact hb1
  -- pointwise value of the final block
  have hH : ∀ i : Nat, (calcAndWriteChecksum b)[i]? =
      if i = 155 then some 0
      else if 148 ≤ i ∧ i < 154 then
        (toOctalAscii (checksumOf (fillChecksumSpaces b)) 6)[i - 148]?
      else (fillChecksumSpaces b)[i]? := by
    intro i
    simp only [calcAndWriteChecksum]
    rcases eq_or_ne i 155 with rfl | hne
    · rw [if_pos rfl]
      simp [List.getElem?_set, hWlen]
    · rw [if_neg hne, List.getElem?_set, if_neg (fun hc => hne hc.symm),
        getElem?_writeIntoBlock _ _ _ _ _ (by rw [hmin]; omega), hmin]
  refine ⟨?_, ?_, ?_⟩
  · -- the digits decode to the space-filled sum of the final block
    have hslice : slice (calcAndWriteChecksum b) 148 6 =
        toOctalAscii (checksumOf (fillChecksumSpaces b)) 6 := by
      apply List.ext_getElem?
      intro j
      rw [slice_getElem?]
      rcases Nat.lt_or_ge j 6 with hj | hj
      · rw [if_pos hj, hH (148 + j), if_neg (by omega), if_pos (by omega),
          show 148 + j - 148 = j from by omega]
      · rw [if_neg (Nat.not_lt.mpr hj)]
        symm
        rw [List.getElem?_eq_none_iff]
        omega
    have hfillH : fillChecksumSpaces (calcAndWriteChecksum b) = fillChecksumSpaces b := by
      apply List.ext_getElem?
      intro i
      have hHlen : (calcAndWriteChecksum b).length = 512 := length_calcAndWriteChecksum b hb
      rw [getElem?_fillChecksumSpaces _ _ (by omega),
        getElem?_fillChecksumSpaces _ _ (by omega)]
      rcases Nat.lt_or_ge i 148 with hi | hi
      · rw [if_neg (by omega), if_neg (by omega), hH i, if_neg (by omega),
          if_neg (by omega), getElem?_fillChecksumSpaces _ _ (by omega),
          if_neg (by omega)]
      · rcases Nat.lt_or_ge i 156 with hi2 | hi2
        · rw [if_pos (by omega), if_pos (by omega)]
        · rw [if_neg (by omega), if_neg (by omega), hH i, if_neg (by omega),
            if_neg (by omega), getElem?_fillChecksumSpaces _ _ (by omega),
            if_neg (by omega)]
    rw [hslice, hfillH]
    exact octalRead_toOctalAscii 6 _ hsum
  · rw [hH 154, if_neg (by omega), if_neg (by omega),
      getElem?_fillChecksumSpaces _ _ (by omega), if_pos (by omega)]
  · rw [hH 155, if_pos rfl]

/-- `calc_and_write_checksum` only modifies bytes 148..155. -/
theorem getElem?_calcAndWriteChecksum_out (b : List Nat) (hb : b.length = 512) (i : Nat)
    (hi : i < 148 ∨ 156 ≤ i) : (calcAndWriteChecksum b)[i]? = b[i]? := by
  have hb1 : (fillChecksumSpaces b).length = 512 := by
    rw [length_fillChecksumSpaces b (by omega)]; exact hb
  have hmin : min (toOctalAscii (checksumOf (fillChecksumSpaces b)) 6).length 6 = 6 := by
    simp [length_toOctalAscii]
  simp only [calcAndWriteChecksum]
  rw [List.getElem?_set, if_neg (by omega),
    getElem?_writeIntoBlock_out _ _ _ _ _ (by omega) (by omega),
    getElem?_fillChecksumSpaces _ _ (by omega), if_neg (by omega)]

theorem length_writeNameAndPfx (typ : TarType) (b n : List Nat) (hb : b.length = 512) :
    (writeNameAndPfx typ b n).length = 512 := by
  simp only [writeNameAndPfx]
  have h100 : ∀ s : List Nat, (writeIntoBlock b s 0 100).length = 512 := fun s => by
    rw [length_writeIntoBlock _ _ _ _ (by have := Nat.min_le_right s.length 100; omega)]
    exact hb
  split
  · exact h100 n
  · split
    · exact h100 n
    · split
      · exact h100 n
      · rename_i idx heq
        have hb1 : (writeIntoBlock b (n.take idx) 345 155).length = 512 := by
          rw [length_writeIntoBlock _ _ _ _
            (by have := Nat.min_le_right (n.take idx).length 155; omega)]
          exact hb
        rw [length_writeIntoBlock _ _ _ _
          (by have := Nat.min_le_right (n.drop (idx + 1)).length 100; omega)]
        exact hb1

/-- `write_name_and_prefix` only modifies bytes 0..99 and 345..499. -/
theorem getElem?_writeNameAndPfx_out (typ : TarType) (b n : List Nat) (i : Nat)
    (hb : b.length = 512) (hi : 100 ≤ i ∧ i < 345) :
    (writeNameAndPfx typ b n)[i]? = b[i]? := by
  simp only [writeNameAndPfx]
  have h100 : ∀ s : List Nat, (writeIntoBlock b s 0 100)[i]? = b[i]? := fun s =>
    getElem?_writeIntoBlock_out _ _ _ _ _ (by omega) (by omega)
  split
  · exact h100 n
  · split
    · exact h100 n
    · split
      · exact h100 n
      · rename_i idx heq
        have hb1 : (writeIntoBlock b (n.take idx) 345 155).length = 512 := by
          rw [length_writeIntoBlock _ _ _ _
            (by have := Nat.min_le_right (n.take idx).length 155; omega)]
          exact hb
        rw [getElem?_writeIntoBlock_out _ _ _ _ _ (by omega) (by omega),
          getElem?_writeIntoBlock_out _ _ _ _ _ (by omega) (by omega)]

/-- `min` collapses for the always-full octal field strings. -/
theorem min_length_toOctalAscii (v w : Nat) : min (toOctalAscii v w).length w = w := by
  rw [length_toOctalAscii]
  exact Nat.min_self w

/-- The numeric fields at bytes 100..147 of a built header: mode, uid,
gid, size and mtime as zero-padded octal ASCII. -/
theorem getElem?_buildHeaderBlock_numeric (env : Env) (typ : TarType)
    (sn sl ln : List Nat) (m u g sz : Nat) (t : Int) (ft : FileTypeFlag)
    (dM dm : Nat) (i : Nat) (hi : 100 ≤ i ∧ i < 148) :
    (buildHeaderBlock env typ sn sl ln m u g sz t ft dM dm)[i]? =
      if i < 108 then (toOctalAscii m 8)[i - 100]?
      else if i < 116 then (toOctalAscii u 8)[i - 108]?
      else if i < 124 then (toOctalAscii g 8)[i - 116]?
      else if i < 136 then (toOctalAscii sz 12)[i - 124]?
      else (toOctalAscii (natOfTime t) 12)[i - 136]? := by
  simp only [buildHeaderBlock, buildHeaderPre]
  set h1 := writeIntoBlock (List.replicate 512 0) (toOctalAscii m 8) 100 8 with hh1
  set h2 := writeIntoBlock h1 (toOctalAscii u 8) 108 8 with hh2
  set h3 := writeIntoBlock h2 (toOctalAscii g 8) 116 8 with hh3
  set h4 := writeIntoBlock h3 (toOctalAscii sz 12) 124 12 with hh4
  set h5 := writeIntoBlock h4 (toOctalAscii (natOfTime t) 12) 136 12 with hh5
  set h6 := writeIntoBlock h5 (toOctalAscii ft.tag 1) 156 1 with hh6
  set h7 := writeNameAndPfx typ h6 sn with hh7
  set h8 := (if ln ≠ [] then writeIntoBlock h7 sl 157 100 else h7) with hh8
  have lrep : (List.replicate 512 (0 : Nat)).length = 512 := List.length_replicate 512 0
  have l1 : h1.length = 512 := by
    rw [hh1, length_writeIntoBlock _ _ _ _ (by rw [min_length_toOctalAscii]; omega)]
    exact lrep
  have l2 : h2.length = 512 := by
    rw [hh2, length_writeIntoBlock _ _ _ _ (by rw [min_length_toOctalAscii]; omega)]
    exact l1
  have l3 : h3.length = 512 := by
    rw [hh3, length_writeIntoBlock _ _ _ _ (by rw [min_length_toOctalAscii]; omega)]
    exact l2
  have l4 : h4.length = 512 := by
    rw [hh4, length_writeIntoBlock _ _ _ _ (by rw [min_length_toOctalAscii]; omega)]
    exact l3
  have l5 : h5.length = 512 := by
    rw [hh5, length_writeIntoBlock _ _ _ _ (by rw [min_length_toOctalAscii]; omega)]
    exact l4
  have l6 : h6.length = 512 := by
    rw [hh6, length_writeIntoBlock _ _ _ _ (by rw [min_length_toOctalAscii]; omega)]
    exact l5
  have l7 : h7.length = 512 := by
    rw [hh7]
    exact length_writeNameAndPfx typ h6 sn l6
  have l8 : h8.length = 512 := by
    rw [hh8]
    split
    · rw [length_writeIntoBlock _ _ _ _ (by have := Nat.min_le_right sl.length 100; omega)]
      exact l7
    · exact l7
  have lu1 : (writeIntoBlock h8 (asc "ustar") 257 6).length = 512 := by
    rw [length_writeIntoBlock _ _ _ _ (by have := Nat.min_le_right (asc "ustar").length 6; omega)]
    exact l8
  have lu2 : (writeIntoBlock (writeIntoBlock h8 (asc "ustar") 257 6)
      (env.userName u) 265 32).length = 512 := by
    rw [length_writeIntoBlock _ _ _ _ (by have := Nat.min_le_right (env.userName u).length 32; omega)]
    exact lu1
  have lu3 : (writeIntoBlock (writeIntoBlock (writeIntoBlock h8 (asc "ustar") 257 6)
      (env.userName u) 265 32) (env.groupName g) 297 32).length = 512 := by
    rw [length_writeIntoBlock _ _ _ _ (by have := Nat.min_le_right (env.groupName g).length 32; omega)]
    exact lu2
  have lu4 : (writeIntoBlock (writeIntoBlock (writeIntoBlock (writeIntoBlock h8
      (asc "ustar") 257 6) (env.userName u) 265 32) (env.groupName g) 297 32)
      (toOctalAscii dM 8) 329 8).length = 512 := by
    rw [length_writeIntoBlock _ _ _ _ (by rw [min_length_toOctalAscii]; omega)]
    exact lu3
  have l9 : (if typ = .ustar then
      writeIntoBlock (writeIntoBlock (writeIntoBlock (writeIntoBlock
        (writeIntoBlock h8 (asc "ustar") 257 6) (env.userName u) 265 32)
        (env.groupName g) 297 32) (toOctalAscii dM 8) 329 8)
        (toOctalAscii dm 8) 337 8 else h8).length = 512 := by
    split
    · rw [length_writeIntoBlock _ _ _ _ (by rw [min_length_toOctalAscii]; omega)]
      exact lu4
    · exact l8
  rw [getElem?_calcAndWriteChecksum_out _ l9 i (by omega)]
  have e9 : (if typ = .ustar then
      writeIntoBlock (writeIntoBlock (writeIntoBlock (writeIntoBlock
        (writeIntoBlock h8 (asc "ustar") 257 6) (env.userName u) 265 32)
        (env.groupName g) 297 32) (toOctalAscii dM 8) 329 8)
        (toOctalAscii dm 8) 337 8 else h8)[i]? = h8[i]? := by
    split
    · rw [getElem?_writeIntoBlock_out _ _ _ _ _ (by omega) (by omega),
        getElem?_writeIntoBlock_out _ _ _ _ _ (by omega) (by omega),
        getElem?_writeIntoBlock_out _ _ _ _ _ (by omega) (by omega),
        getElem?_writeIntoBlock_out _ _ _ _ _ (by omega) (by omega),
        getElem?_writeIntoBlock_out _ _ _ _ _ (by omega) (by omega)]
    · rfl
  rw [e9]
  have e8 : h8[i]? = h7[i]? := by
    rw [hh8]
    split
    · exact getElem?_writeIntoBlock_out _ _ _ _ _ (by omega) (by omega)
    · rfl
  rw [e8, hh7, getElem?_writeNameAndPfx_out typ h6 sn i l6 (by omega), hh6,
    getElem?_writeIntoBlock_out _ _ _ _ _ (by omega) (by omega)]
  rcases Nat.lt_or_ge i 108 with hc | hc
  · rw [if_pos hc, hh5, getElem?_writeIntoBlock_out _ _ _ _ _ (by omega) (by omega),
      hh4, getElem?_writeIntoBlock_out _ _ _ _ _ (by omega) (by omega),
      hh3, getElem?_writeIntoBlock_out _ _ _ _ _ (by omega) (by omega),
      hh2, getElem?_writeIntoBlock_out _ _ _ _ _ (by omega) (by omega), hh1]
    rw [show i = 100 + (i - 100) from by omega]
    rw [getElem?_writeIntoBlock_in _ _ _ _ _ (by rw [min_length_toOctalAscii]; omega)
      (by rw [min_length_toOctalAscii]; omega)]
    rw [show 100 + (i - 100) - 100 = i - 100 from by omega]
  · rw [if_neg (by omega)]
    rcases Nat.lt_or_ge i 116 with hc2 | hc2
    · rw [if_pos hc2, hh5, getElem?_writeIntoBlock_out _ _ _ _ _ (by omega) (by omega),
        hh4, getElem?_writeIntoBlock_out _ _ _ _ _ (by omega) (by omega),
        hh3, getElem?_writeIntoBlock_out _ _ _ _ _ (by omega) (by omega), hh2]
      rw [show i = 108 + (i - 108) from by omega]
      rw [getElem?_writeIntoBlock_in _ _ _ _ _ (by rw [min_length_toOctalAscii]; omega)
        (by rw [min_length_toOctalAscii]; omega)]
      rw [show 108 + (i - 108) - 108 = i - 108 from by omega]
    · rw [if_neg (by omega)]
      rcases Nat.lt_or_ge i 124 with hc3 | hc3
      · rw [if_pos hc3, hh5, getElem?_writeIntoBlock_out _ _ _ _ _ (by omega) (by omega),
          hh4, getElem?_writeIntoBlock_out _ _ _ _ _ (by omega) (by omega), hh3]
        rw [show i = 116 + (i - 116) from by omega]
        rw [getElem?_writeIntoBlock_in _ _ _ _ _ (by rw [min_length_toOctalAscii]; omega)
          (by rw [min_length_toOctalAscii]; omega)]
        rw [show 116 + (i - 116) - 116 = i - 116 from by omega]
      · rw [if_neg (by omega)]
        rcases Nat.lt_or_ge i 136 with hc4 | hc4
        · rw [if_pos hc4, hh5, getElem?_writeIntoBlock_out _ _ _ _ _ (by omega) (by omega),
            hh4]
          rw [show i = 124 + (i - 124) from by omega]
          rw [getElem?_writeIntoBlock_in _ _ _ _ _ (by rw [min_length_toOctalAscii]; omega)
            (by rw [min_length_toOctalAscii]; omega)]
          rw [show 124 + (i - 124) - 124 = i - 124 from by omega]
        · rw [if_neg (by omega), hh5]
          rw [show i = 136 + (i - 136) from by omega]
          rw [getElem?_writeIntoBlock_in _ _ _ _ _ (by rw [min_length_toOctalAscii]; omega)
            (by rw [min_length_toOctalAscii]; omega)]
          rw [show 136 + (i - 136) - 136 = i - 136 from by omega]

/-- The pre-checksum field image is one 512-byte block. -/
theorem length_buildHeaderPre (env : Env) (typ : TarType)
    (sn sl ln : List Nat) (m u g sz : Nat) (t : Int) (ft : FileTypeFlag)
    (dM dm : Nat) :
    (buildHeaderPre env typ sn sl ln m u g sz t ft dM dm).length = 512 := by
  simp only [buildHeaderPre]
  set h1 := writeIntoBlock (List.replicate 512 0) (toOctalAscii m 8) 100 8 with hh1
  set h2 := writeIntoBlock h1 (toOctalAscii u 8) 108 8 with hh2
  set h3 := writeIntoBlock h2 (toOctalAscii g 8) 116 8 with hh3
  set h4 := writeIntoBlock h3 (toOctalAscii sz 12) 124 12 with hh4
  set h5 := writeIntoBlock h4 (toOctalAscii (natOfTime t) 12) 136 12 with hh5
  set h6 := writeIntoBlock h5 (toOctalAscii ft.tag 1) 156 1 with hh6
  set h7 := writeNameAndPfx typ h6 sn with hh7
  set h8 := (if ln ≠ [] then writeIntoBlock h7 sl 157 100 else h7) with hh8
  have lrep : (List.replicate 512 (0 : Nat)).length = 512 := List.length_replicate 512 0
  have l1 : h1.length = 512 := by
    rw [hh1, length_writeIntoBlock _ _ _ _ (by rw [min_length_toOctalAscii]; omega)]
    exact lrep
  have l2 : h2.length = 512 := by
    rw [hh2, length_writeIntoBlock _ _ _ _ (by rw [min_length_toOctalAscii]; omega)]
    exact l1
  have l3 : h3.length = 512 := by
    rw [hh3, length_writeIntoBlock _ _ _ _ (by rw [min_length_toOctalAscii]; omega)]
    exact l2
  have l4 : h4.length = 512 := by
    rw [hh4, length_writeIntoBlock _ _ _ _ (by rw [min_length_toOctalAscii]; omega)]
    exact l3
  have l5 : h5.length = 512 := by
    rw [hh5, length_writeIntoBlock _ _ _ _ (by rw [min_length_toOctalAscii]; omega)]
    exact l4
  have l6 : h6.length = 512 := by
    rw [hh6, length_writeIntoBlock _ _ _ _ (by rw [min_length_toOctalAscii]; omega)]
    exact l5
  have l7 : h7.length = 512 := by
    rw [hh7]
    exact length_writeNameAndPfx typ h6 sn l6
  have l8 : h8.length = 512 := by
    rw [hh8]
    split
    · rw [length_writeIntoBlock _ _ _ _ (by have := Nat.min_le_right sl.length 100; omega)]
      exact l7
    · exact l7
  have lu1 : (writeIntoBlock h8 (asc "ustar") 257 6).length = 512 := by
    rw [length_writeIntoBlock _ _ _ _ (by have := Nat.min_le_right (asc "ustar").length 6; omega)]
    exact l8
  have lu2 : (writeIntoBlock (writeIntoBlock h8 (asc "ustar") 257 6)
      (env.userName u) 265 32).length = 512 := by
    rw [length_writeIntoBlock _ _ _ _ (by have := Nat.min_le_right (env.userName u).length 32; omega)]
    exact lu1
  have lu3 : (writeIntoBlock (writeIntoBlock (writeIntoBlock h8 (asc "ustar") 257 6)
      (env.userName u) 265 32) (env.groupName g) 297 32).length = 512 := by
    rw [length_writeIntoBlock _ _ _ _ (by have := Nat.min_le_right (env.groupName g).length 32; omega)]
    exact lu2
  have lu4 : (writeIntoBlock (writeIntoBlock (writeIntoBlock (writeIntoBlock h8
      (asc "ustar") 257 6) (env.userName u) 265 32) (env.groupName g) 297 32)
      (toOctalAscii dM 8) 329 8).length = 512 := by
    rw [length_writeIntoBlock _ _ _ _ (by rw [min_length_toOctalAscii]; omega)]
    exact lu3
  have l9 : (if typ = .ustar then
      writeIntoBlock (writeIntoBlock (writeIntoBlock (writeIntoBlock
        (writeIntoBlock h8 (asc "ustar") 257 6) (env.userName u) 265 32)
        (env.groupName g) 297 32) (toOctalAscii dM 8) 329 8)
        (toOctalAscii dm 8) 337 8 else h8).length = 512 := by
    split
    · rw [length_writeIntoBlock _ _ _ _ (by rw [min_length_toOctalAscii]; omega)]
      exact lu4
    · exact l8
  exact l9

/-- A built header block is one 512-byte block. -/
theorem length_buildHeaderBlock (env : Env) (typ : TarType)
    (sn sl ln : List Nat) (m u g sz : Nat) (t : Int) (ft : FileTypeFlag)
    (dM dm : Nat) :
    (buildHeaderBlock env typ sn sl ln m u g sz t ft dM dm).length = 512 := by
  simp only [buildHeaderBlock]
  exact length_calcAndWriteChecksum _
    (length_buildHeaderPre env typ sn sl ln m u g sz t ft dM dm)

/-- Every built header block carries a checksum field in the emitted
layout: six octal digits of the space-filled unsigned byte sum at
148..153, a space at 154 and a NUL at 155. -/
theorem buildHeaderBlock_checksum_spec (env : Env) (typ : TarType)
    (sn sl ln : List Nat) (m u g sz : Nat) (t : Int) (ft : FileTypeFlag)
    (dM dm : Nat) :
    octalRead (slice (buildHeaderBlock env typ sn sl ln m u g sz t ft dM dm) 148 6)
        = checksumOf (fillChecksumSpaces
            (buildHeaderBlock env typ sn sl ln m u g sz t ft dM dm))
    ∧ (buildHeaderBlock env typ sn sl ln m u g sz t ft dM dm)[154]? = some 32
    ∧ (buildHeaderBlock env typ sn sl ln m u g sz t ft dM dm)[155]? = some 0 := by
  simp only [buildHeaderBlock]
  exact calcAndWriteChecksum_spec _
    (length_buildHeaderPre env typ sn sl ln m u g sz t ft dM dm)

/-- Bytes 156..256 of a built header: the typeflag character and the
100-byte linkname field (written only when the raw link name is
non-empty; the remaining bytes keep the zero initialization). -/
theorem getElem?_buildHeaderBlock_link (env : Env) (typ : TarType)
    (sn sl ln : List Nat) (m u g sz : Nat) (t : Int) (ft : FileTypeFlag)
    (dM dm : Nat) (i : Nat) (hi : 156 ≤ i ∧ i < 257) :
    (buildHeaderBlock env typ sn sl ln m u g sz t ft dM dm)[i]? =
      if i = 156 then some (48 + ft.tag % 8)
      else if ln ≠ [] ∧ i - 157 < min sl.length 100 then sl[i - 157]?
      else some 0 := by
  simp only [buildHeaderBlock, buildHeaderPre]
  set h1 := writeIntoBlock (List.replicate 512 0) (toOctalAscii m 8) 100 8 with hh1
  set h2 := writeIntoBlock h1 (toOctalAscii u 8) 108 8 with hh2
  set h3 := writeIntoBlock h2 (toOctalAscii g 8) 116 8 with hh3
  set h4 := writeIntoBlock h3 (toOctalAscii sz 12) 124 12 with hh4
  set h5 := writeIntoBlock h4 (toOctalAscii (natOfTime t) 12) 136 12 with hh5
  set h6 := writeIntoBlock h5 (toOctalAscii ft.tag 1) 156 1 with hh6
  set h7 := writeNameAndPfx typ h6 sn with hh7
  set h8 := (if ln ≠ [] then writeIntoBlock h7 sl 157 100 else h7) with hh8
  have lrep : (List.replicate 512 (0 : Nat)).length = 512 := List.length_replicate 512 0
  have l1 : h1.length = 512 := by
    rw [hh1, length_writeIntoBlock _ _ _ _ (by rw [min_length_toOctalAscii]; omega)]
    exact lrep
  have l2 : h2.length = 512 := by
    rw [hh2, length_writeIntoBlock _ _ _ _ (by rw [min_length_toOctalAscii]; omega)]
    exact l1
  have l3 : h3.length = 512 := by
    rw [hh3, length_writeIntoBlock _ _ _ _ (by rw [min_length_toOctalAscii]; omega)]
    exact l2
  have l4 : h4.length = 512 := by
    rw [hh4, length_writeIntoBlock _ _ _ _ (by rw [min_length_toOctalAscii]; omega)]
    exact l3
  have l5 : h5.length = 512 := by
    rw [hh5, length_writeIntoBlock _ _ _ _ (by rw [min_length_toOctalAscii]; omega)]
    exact l4
  have l6 : h6.length = 512 := by
    rw [hh6, length_writeIntoBlock _ _ _ _ (by rw [min_length_toOctalAscii]; omega)]
    exact l5
  have l7 : h7.length = 512 := by
    rw [hh7]
    exact length_writeNameAndPfx typ h6 sn l6
  have l8 : h8.length = 512 := by
    rw [hh8]
    split
    · rw [length_writeIntoBlock _ _ _ _ (by have := Nat.min_le_right sl.length 100; omega)]
      exact l7
    · exact l7
  have lu1 : (writeIntoBlock h8 (asc "ustar") 257 6).length = 512 := by
    rw [length_writeIntoBlock _ _ _ _ (by have := Nat.min_le_right (asc "ustar").length 6; omega)]
    exact l8
  have lu2 : (writeIntoBlock (writeIntoBlock h8 (asc "ustar") 257 6)
      (env.userName u) 265 32).length = 512 := by
    rw [length_writeIntoBlock _ _ _ _ (by have := Nat.min_le_right (env.userName u).length 32; omega)]
    exact lu1
  have lu3 : (writeIntoBlock (writeIntoBlock (writeIntoBlock h8 (asc "ustar") 257 6)
      (env.userName u) 265 32) (env.groupName g) 297 32).length = 512 := by
    rw [length_writeIntoBlock _ _ _ _ (by have := Nat.min_le_right (env.groupName g).length 32; omega)]
    exact lu2
  have lu4 : (writeIntoBlock (writeIntoBlock (writeIntoBlock (writeIntoBlock h8
      (asc "ustar") 257 6) (env.userName u) 265 32) (env.groupName g) 297 32)
      (toOctalAscii dM 8) 329 8).length = 512 := by
    rw [length_writeIntoBlock _ _ _ _ (by rw [min_length_toOctalAscii]; omega)]
    exact lu3
  have l9 : (if typ = .ustar then
      writeIntoBlock (writeIntoBlock (writeIntoBlock (writeIntoBlock
        (writeIntoBlock h8 (asc "ustar") 257 6) (env.userName u) 265 32)
        (env.groupName g) 297 32) (toOctalAscii dM 8) 329 8)
        (toOctalAscii dm 8) 337 8 else h8).length = 512 := by
    split
    · rw [length_writeIntoBlock _ _ _ _ (by rw [min_length_toOctalAscii]; omega)]
      exact lu4
    · exact l8
  rw [getElem?_calcAndWriteChecksum_out _ l9 i (by omega)]
  have e9 : (if typ = .ustar then
      writeIntoBlock (writeIntoBlock (writeIntoBlock (writeIntoBlock
        (writeIntoBlock h8 (asc "ustar") 257 6) (env.userName u) 265 32)
        (env.groupName g) 297 32) (toOctalAscii dM 8) 329 8)
        (toOctalAscii dm 8) 337 8 else h8)[i]? = h8[i]? := by
    split
    · rw [getElem?_writeIntoBlock_out _ _ _ _ _ (by omega) (by omega),
        getElem?_writeIntoBlock_out _ _ _ _ _ (by omega) (by omega),
        getElem?_writeIntoBlock_out _ _ _ _ _ (by omega) (by omega),
        getElem?_writeIntoBlock_out _ _ _ _ _ (by omega) (by omega),
        getElem?_writeIntoBlock_out _ _ _ _ _ (by omega) (by omega)]
    · rfl
  rw [e9]
  have ezero : ∀ j : Nat, 157 ≤ j → j < 257 → h7[j]? = some 0 := by
    intro j hj1 hj2
    rw [hh7, getElem?_writeNameAndPfx_out typ h6 sn j l6 (by omega), hh6,
      getElem?_writeIntoBlock_out _ _ _ _ _ (by omega) (by omega), hh5,
      getElem?_writeIntoBlock_out _ _ _ _ _ (by omega) (by omega), hh4,
      getElem?_writeIntoBlock_out _ _ _ _ _ (by omega) (by omega), hh3,
      getElem?_writeIntoBlock_out _ _ _ _ _ (by omega) (by omega), hh2,
      getElem?_writeIntoBlock_out _ _ _ _ _ (by omega) (by omega), hh1,
      getElem?_writeIntoBlock_out _ _ _ _ _ (by omega) (by omega)]
    exact getElem?_replicate_zero 512 j (by omega)
  rcases eq_or_ne i 156 with rfl | hne
  · rw [if_pos rfl]
    have e8 : h8[(156 : Nat)]? = h7[(156 : Nat)]? := by
      rw [hh8]
      split
      · exact getElem?_writeIntoBlock_out _ _ _ _ _ (by omega) (by omega)
      · rfl
    have hin := getElem?_writeIntoBlock_in h5 (toOctalAscii ft.tag 1) 156 1 0
      (by rw [min_length_toOctalAscii]; omega) (by rw [min_length_toOctalAscii]; omega)
    rw [show (156 : Nat) + 0 = 156 from by omega] at hin
    rw [e8, hh7, getElem?_writeNameAndPfx_out typ h6 sn 156 l6 (by omega), hh6, hin]
    simp [toOctalAscii]
  · rw [if_neg hne]
    have hi157 : 157 ≤ i := by omega
    by_cases hln : ln ≠ []
    · rw [hh8, if_pos hln]
      by_cases hsl : i - 157 < min sl.length 100
      · rw [if_pos ⟨hln, hsl⟩]
        have hin := getElem?_writeIntoBlock_in h7 sl 157 100 (i - 157)
          (by have := Nat.min_le_right sl.length 100; omega) hsl
        rw [show 157 + (i - 157) = i from by omega] at hin
        rw [hin]
      · rw [if_neg (fun hc => hsl hc.2)]
        rw [getElem?_writeIntoBlock_outMin _ _ _ _ _
          (by have := Nat.min_le_right sl.length 100; omega) (by omega)]
        exact ezero i hi157 (by omega)
    · rw [hh8, if_neg hln, if_neg (fun hc => hln hc.1)]
      exact ezero i hi157 (by omega)

theorem tag_char (ft : FileTypeFlag) : 48 + ft.tag % 8 = ft.tag := by
  cases ft <;> rfl

/-- The mode field (bytes 100..107) of a built header is the octal
rendering of the `mode` argument. -/
theorem slice_buildHeaderBlock_mode (env : Env) (typ : TarType)
    (sn sl ln : List Nat) (m u g sz : Nat) (t : Int) (ft : FileTypeFlag) (dM dm : Nat) :
    slice (buildHeaderBlock env typ sn sl ln m u g sz t ft dM dm) 100 8 =
      toOctalAscii m 8 := by
  apply List.ext_getElem?
  intro j
  rw [slice_getElem?]
  rcases Nat.lt_or_ge j 8 with hj | hj
  · rw [if_pos hj, getElem?_buildHeaderBlock_numeric env typ sn sl ln m u g sz t ft dM dm
      (100 + j) (by omega), if_pos (by omega),
      show 100 + j - 100 = j from by omega]
  · rw [if_neg (by omega)]
    symm
    rw [List.getElem?_eq_none_iff, length_toOctalAscii]
    omega

/-- The size field (bytes 124..135) of a built header is the octal
rendering of the `size` argument. -/
theorem slice_buildHeaderBlock_size (env : Env) (typ : TarType)
    (sn sl ln : List Nat) (m u g sz : Nat) (t : Int) (ft : FileTypeFlag) (dM dm : Nat) :
    slice (buildHeaderBlock env typ sn sl ln m u g sz t ft dM dm) 124 12 =
      toOctalAscii sz 12 := by
  apply List.ext_getElem?
  intro j
  rw [slice_getElem?]
  rcases Nat.lt_or_ge j 12 with hj | hj
  · rw [if_pos hj, getElem?_buildHeaderBlock_numeric env typ sn sl ln m u g sz t ft dM dm
      (124 + j) (by omega), if_neg (by omega), if_neg (by omega), if_neg (by omega),
      if_pos (by omega), show 124 + j - 124 = j from by omega]
  · rw [if_neg (by omega)]
    symm
    rw [List.getElem?_eq_none_iff, length_toOctalAscii]
    omega

/-- Byte 156 of a built header is the entry kind's tag character. -/
theorem getElem?_buildHeaderBlock_typeflag (env : Env) (typ : TarType)
    (sn sl ln : List Nat) (m u g sz : Nat) (t : Int) (ft : FileTypeFlag) (dM dm : Nat) :
    (buildHeaderBlock env typ sn sl ln m u g sz t ft dM dm)[156]? = some ft.tag := by
  rw [getElem?_buildHeaderBlock_link env typ sn sl ln m u g sz t ft dM dm 156 (by omega),
    if_pos rfl, tag_char]

/-- The linkname field (bytes 157..256) of a built header, when the raw
link name is non-empty: the normalized link, zero-padded. -/
theorem slice_buildHeaderBlock_linkname (env : Env) (typ : TarType)
    (sn sl ln : List Nat) (m u g sz : Nat) (t : Int) (ft : FileTypeFlag) (dM dm : Nat)
    (hln : ln ≠ []) :
    slice (buildHeaderBlock env typ sn sl ln m u g sz t ft dM dm) 157 100 =
      sl.take 100 ++ List.replicate (100 - min sl.length 100) 0 := by
  apply List.ext_getElem?
  intro j
  rw [slice_getElem?]
  rcases Nat.lt_or_ge j 100 with hj | hj
  · rw [if_pos hj, getElem?_buildHeaderBlock_link env typ sn sl ln m u g sz t ft dM dm
      (157 + j) (by omega), if_neg (by omega), List.getElem?_append]
    have hlt : (sl.take 100).length = min sl.length 100 := by
      simp [Nat.min_comm]
    rw [hlt]
    rcases Nat.lt_or_ge j (min sl.length 100) with hj2 | hj2
    · rw [if_pos (⟨hln, by omega⟩ : ln ≠ [] ∧ 157 + j - 157 < min sl.length 100),
        if_pos hj2, List.getElem?_take, if_pos hj,
        show 157 + j - 157 = j from by omega]
    · rw [if_neg (fun hc => absurd hc.2 (by omega)), if_neg (Nat.not_lt.mpr hj2),
        List.getElem?_replicate, if_pos (by omega)]
  · rw [if_neg (by omega)]
    symm
    rw [List.getElem?_eq_none_iff]
    simp only [List.length_append, List.length_take, List.length_replicate]
    omega

/-- The linkname field of a built header is all-zero when the raw link
name is empty. -/
theorem slice_buildHeaderBlock_linkname_empty (env : Env) (typ : TarType)
    (sn sl : List Nat) (m u g sz : Nat) (t : Int) (ft : FileTypeFlag) (dM dm : Nat) :
    slice (buildHeaderBlock env typ sn sl [] m u g sz t ft dM dm) 157 100 =
      List.replicate 100 0 := by
  apply List.ext_getElem?
  intro j
  rw [slice_getElem?]
  rcases Nat.lt_or_ge j 100 with hj | hj
  · rw [if_pos hj, getElem?_buildHeaderBlock_link env typ sn sl [] m u g sz t ft dM dm
      (157 + j) (by omega), if_neg (by omega), if_neg (fun hc => hc.1 rfl),
      List.getElem?_replicate, if_pos hj]
  · rw [if_neg (by omega)]
    symm
    rw [List.getElem?_eq_none_iff, List.length_replicate]
    omega

/-- Writing when the file cursor sits at the end appends. -/
theorem writeBytesAt_append (out b : List Nat) :
    writeBytesAt out out.length b = out ++ b := by
  simp only [writeBytesAt]
  rw [show out.length + b.length - out.length = b.length from by omega]
  rw [List.take_left, List.drop_eq_nil_of_le (by simp), List.append_nil]

/-- `write` appends the block to the emitted bytes, in callback mode or
when the file position is at the end of the file. -/
theorem write_out_append (st : TarState) (b : List Nat) (hopen : st.isOpen = true)
    (hpos : st.mode = .streamOutput ∨ st.pos = st.out.length) :
    (write st b).out = st.out ++ b := by
  unfold write
  rw [if_neg (by simp [hopen])]
  rcases hmode : st.mode with _ | _
  · rcases hpos with hp | hp
    · rw [hmode] at hp
      cases hp
    · simp only [hp]
      exact writeBytesAt_append st.out b
  · rfl

/-- `write_header` on a non-directory entry that passes all checks:
the state records the raw name and the built block is emitted. -/
theorem writeHeader_ok (env : Env) (st : TarState) (n : List Nat)
    (m u g sz : Nat) (t : Int) (ft : FileTypeFlag) (dM dm : Nat) (ln sn sl : List Nat)
    (hpos : ¬ st.streamHeaderPos > -1)
    (hdup : ¬ (st.storedFiles.contains n ∧ (ft = .regularFile ∨ ft = .contiguousFile)))
    (hdir : ft ≠ .directory)
    (hsup : ¬ (st.typ = .unixV7 ∧ ft.tag > 50))
    (hsn : relativePath n = .ok sn)
    (hsl : (if ft = .symbolicLink then Except.ok ln
            else relativePath ln : Except Err (List Nat)) = .ok sl) :
    writeHeader env st n m u g sz t ft dM dm ln =
      (write { st with storedFiles := n :: st.storedFiles }
        (buildHeaderBlock env st.typ sn sl ln m u g sz t ft dM dm), none) := by
  simp only [writeHeader]
  rw [if_neg hpos, if_neg hdup, if_neg (fun hc => hdir hc.1)]
  rw [show (if ft = FileTypeFlag.directory ∧ n.getLast? ≠ some 47 then n ++ [47] else n) = n
    from if_neg (fun hc => hdir hc.1)]
  rw [show (if ft = FileTypeFlag.directory ∧ st.typ = TarType.unixV7
      then FileTypeFlag.regularFile else ft) = ft from if_neg (fun hc => hdir hc.1)]
  rw [if_neg hsup, hsn, hsl]

/-- Every successful `write_header` call emits exactly one built header
block (for some normalized name/link and possibly directory-rewritten
kind) and records the raw name. -/
theorem writeHeader_emits (env : Env) (st : TarState) (n : List Nat) (m u g sz : Nat)
    (t : Int) (ft : FileTypeFlag) (dM dm : Nat) (ln : List Nat) (st' : TarState)
    (hw : writeHeader env st n m u g sz t ft dM dm ln = (st', none)) :
    ∃ nm sn sl ftR, st' = write { st with storedFiles := nm :: st.storedFiles }
      (buildHeaderBlock env st.typ sn sl ln m u g sz t ftR dM dm) := by
  simp only [writeHeader] at hw
  repeat' split at hw
  all_goals
    first
      | exact Option.noConfusion (congrArg Prod.snd hw)
      | exact ⟨_, _, _, _, (congrArg Prod.fst hw).symm⟩

/-! ## Claim theorems -/

set_option maxRecDepth 100000 in
/-- C2 counterexample: the spec claims every emitted header block `H`
has `H[154] == 0x00` and `H[155] == 0x20`.  The concrete symlink entry
emitted below (UNIX-v7 writer, names `"tgt"`/`"lnk"`) has byte 154 equal
to 0x20 (the space is left in place) and byte 155 equal to 0x00, so the
claim as stated is false. -/
theorem claim_C2_counterexample :
    ((addSymlink envEmpty (initFile .unixV7 (asc "t.tar")) (asc "tgt") (asc "lnk")
        0 0 0).1.out[154]? = some 32 ∧
     (addSymlink envEmpty (initFile .unixV7 (asc "t.tar")) (asc "tgt") (asc "lnk")
        0 0 0).1.out[155]? = some 0) ∧
    ¬ ((addSymlink envEmpty (initFile .unixV7 (asc "t.tar")) (asc "tgt") (asc "lnk")
        0 0 0).1.out[154]? = some 0) := by
  decide

/-- C2 (amended): for every header block `H` the writer emits through
`write_header`, the unsigned 8-bit sum of the 512 bytes of `H` with
bytes 148..155 replaced by eight ASCII spaces equals the six-digit octal
ASCII number stored at `H[148..153]` — but the final two checksum bytes
are laid out as `H[154] == 0x20` (space) and `H[155] == 0x00`, not the
other way round as the spec states. -/
theorem claim_C2 (env : Env) (st : TarState) (n : List Nat) (m u g sz : Nat)
    (t : Int) (ft : FileTypeFlag) (dM dm : Nat) (ln : List Nat) (st' : TarState)
    (hopen : st.isOpen = true)
    (hpos : st.mode = .streamOutput ∨ st.pos = st.out.length)
    (hw : writeHeader env st n m u g sz t ft dM dm ln = (st', none)) :
    ∃ H, st'.out = st.out ++ H ∧ H.length = 512 ∧
      octalRead (slice H 148 6) = checksumOf (fillChecksumSpaces H) ∧
      H[154]? = some 32 ∧ H[155]? = some 0 := by
  obtain ⟨nm, sn, sl, ftR, rfl⟩ := writeHeader_emits env st n m u g sz t ft dM dm ln st' hw
  refine ⟨buildHeaderBlock env st.typ sn sl ln m u g sz t ftR dM dm, ?_, ?_, ?_, ?_, ?_⟩
  · exact write_out_append _ _ hopen hpos
  · exact length_buildHeaderBlock env st.typ sn sl ln m u g sz t ftR dM dm
  · exact (buildHeaderBlock_checksum_spec env st.typ sn sl ln m u g sz t ftR dM dm).1
  · exact (buildHeaderBlock_checksum_spec env st.typ sn sl ln m u g sz t ftR dM dm).2.1
  · exact (buildHeaderBlock_checksum_spec env st.typ sn sl ln m u g sz t ftR dM dm).2.2

set_option maxRecDepth 100000 in
/-- Witness for C2 at a concrete regular-file header. -/
theorem claim_C2_witness :
    ∃ H, (writeHeader envEmpty (initFile .unixV7 (asc "t.tar")) (asc "f") 420 0 0 13 0
        .regularFile 0 0 []).1.out = (initFile .unixV7 (asc "t.tar")).out ++ H ∧
      H.length = 512 ∧
      octalRead (slice H 148 6) = checksumOf (fillChecksumSpaces H) ∧
      H[154]? = some 32 ∧ H[155]? = some 0 := by
  refine claim_C2 envEmpty (initFile .unixV7 (asc "t.tar")) (asc "f") 420 0 0 13 0
    .regularFile 0 0 [] _ rfl (Or.inr rfl) ?_
  have h2 : (writeHeader envEmpty (initFile .unixV7 (asc "t.tar")) (asc "f") 420 0 0 13 0
      .regularFile 0 0 []).2 = none := by decide
  exact Prod.ext rfl h2

/-- `relative_path` never returns a path that begins with `'/'`. -/
theorem relativePath_head : ∀ (p q : List Nat), relativePath p = .ok q →
    q.head? ≠ some 47
  | [], q, h => by
    simp only [relativePath] at h
    cases h
    simp
  | [c], q, h => by
    simp only [relativePath] at h
    split at h
    · cases h
    · cases h
      rename_i hc
      simp only [List.head?_cons, ne_eq, Option.some.injEq]
      intro hcc
      exact hc (by simp [asc, hcc])
  | c1 :: c2 :: rest, q, h => by
    simp only [relativePath] at h
    split at h
    · cases h
      simp [asc]
    · split at h
      · exact relativePath_head (c2 :: rest) q h
      · split at h
        · exact relativePath_head rest q h
        · cases h
          rename_i h1 h2 h3
          simp only [List.head?_cons, ne_eq, Option.some.injEq]
          intro hcc
          exact h2 hcc

theorem checkStateAndFlush_none (st : TarState) (hopen : st.isOpen = true)
    (hpos : st.streamHeaderPos < 0) : checkStateAndFlush st = none := by
  unfold checkStateAndFlush
  rw [if_neg (by simp [hopen]), if_neg (by omega)]

theorem isFileTypeSupported_symlink (t : TarType) :
    isFileTypeSupported t .symbolicLink = true := by
  cases t <;> decide

/-- C9: every SYMLINK entry is encoded with mode 0777: `add_symlink`
takes no mode argument and passes `permission_t::all_all`, and
`add_from_filesystem` on a symbolic link (without following it)
discards the stat mode and substitutes 0777 — the emitted header's mode
field is the octal rendering of 511 in both cases, whatever the
filesystem reports. -/
theorem claim_C9 :
    (∀ (env : Env) (st : TarState) (fileName linkName sn : List Nat) (uid gid : Nat)
       (t : Int),
      st.isOpen = true → st.streamHeaderPos < 0 →
      (st.mode = .streamOutput ∨ st.pos = st.out.length) →
      relativePath linkName = .ok sn →
      (addSymlink env st fileName linkName uid gid t).2 = none ∧
      ∃ H, (addSymlink env st fileName linkName uid gid t).1.out = st.out ++ H ∧
        slice H 100 8 = toOctalAscii 511 8) ∧
    (∀ (env : Env) (st : TarState) (p sn : List Nat) (e : FSEntry),
      st.isOpen = true → st.streamHeaderPos < 0 →
      (st.mode = .streamOutput ∨ st.pos = st.out.length) →
      env.lookup p = some e → e.ftype = .symbolicLink → p ≠ st.fileName →
      relativePath p = .ok sn →
      (addFromFilesystem1 env st p false).2 = none ∧
      ∃ H, (addFromFilesystem1 env st p false).1.out = st.out ++ H ∧
        slice H 100 8 = toOctalAscii 511 8) := by
  constructor
  · intro env st fileName linkName sn uid gid t hopen hpos hmode hsn
    have hcheck : checkStateAndFlush st = none := checkStateAndFlush_none st hopen hpos
    have hwh := writeHeader_ok env st linkName 511 uid gid 0 t .symbolicLink 0 0
      fileName sn fileName
      (by omega) (fun hc => by rcases hc.2 with h | h <;> cases h)
      (fun hd => by cases hd) (fun hc => absurd hc.2 (by decide)) hsn (by rw [if_pos rfl])
    simp only [addSymlink, hcheck]
    rw [hwh]
    refine ⟨rfl, buildHeaderBlock env st.typ sn fileName fileName 511 uid gid 0 t
      .symbolicLink 0 0, ?_, ?_⟩
    · exact write_out_append _ _ hopen hmode
    · exact slice_buildHeaderBlock_mode env st.typ sn fileName fileName 511 uid gid 0 t
        .symbolicLink 0 0
  · intro env st p sn e hopen hpos hmode hlookup hft hself hsn
    have hcheck : checkStateAndFlush st = none := checkStateAndFlush_none st hopen hpos
    simp only [addFromFilesystem1, hcheck]
    simp only [readFromFilesystemWriteToTar, hlookup, hft]
    simp [hself, isFileTypeSupported_symlink]
    have hwh := writeHeader_ok env
      { st with storedInos := (insertIno st.storedInos e.fino p) } p 511 e.fowner
      e.fgroup 0 e.fmtime .symbolicLink 0 0 e.flinkTarget sn e.flinkTarget
      (by simp; omega) (fun hc => by rcases hc.2 with h | h <;> cases h)
      (fun hd => by cases hd) (fun hc => absurd hc.2 (by decide)) hsn (by rw [if_pos rfl])
    simp only [hlookup]
    simp only [hwh]
    refine ⟨trivial, buildHeaderBlock env st.typ sn e.flinkTarget e.flinkTarget 511 e.fowner
      e.fgroup 0 e.fmtime .symbolicLink 0 0, ?_, ?_⟩
    · exact write_out_append _ _ hopen hmode
    · exact slice_buildHeaderBlock_mode env st.typ sn e.flinkTarget e.flinkTarget 511
        e.fowner e.fgroup 0 e.fmtime .symbolicLink 0 0

set_option maxRecDepth 100000 in
/-- Witness for C9: a concrete `add_symlink` call and a concrete
`add_from_filesystem` call on the symlink `/s` (whose stat mode is
0644) both emit a header whose mode field spells octal 0777. -/
theorem claim_C9_witness :
    ((addSymlink envEmpty (initFile .unixV7 (asc "t.tar")) (asc "target") (asc "lnk")
        3 4 5).2 = none ∧
      ∃ H, (addSymlink envEmpty (initFile .unixV7 (asc "t.tar")) (asc "target")
          (asc "lnk") 3 4 5).1.out = (initFile .unixV7 (asc "t.tar")).out ++ H ∧
        slice H 100 8 = toOctalAscii 511 8) ∧
    ((addFromFilesystem1 envSymlinkS (initFile .ustar (asc "t.tar")) (asc "/s")
        false).2 = none ∧
      ∃ H, (addFromFilesystem1 envSymlinkS (initFile .ustar (asc "t.tar")) (asc "/s")
          false).1.out = (initFile .ustar (asc "t.tar")).out ++ H ∧
        slice H 100 8 = toOctalAscii 511 8) := by
  exact ⟨claim_C9.1 envEmpty (initFile .unixV7 (asc "t.tar")) (asc "target") (asc "lnk")
      (asc "lnk") 3 4 5 rfl (by decide) (Or.inr rfl) rfl,
    claim_C9.2 envSymlinkS (initFile .ustar (asc "t.tar")) (asc "/s") (asc "s")
      ⟨.symbolicLink, 0, 9, 420, asc "/etc/passwd", 11, 1, 3, 4, 0, 0, []⟩
      rfl (by decide) (Or.inr rfl) rfl rfl (by decide) rfl⟩

set_option maxRecDepth 100000 in
/-- C1: the claim says the const-size strategy copies the first S source
bytes into ceil(S/512) data blocks (zero-padding the last, growing
sources truncated, shrunken sources zero-filled).  The code computes
`write_size` as `processed_bytes - expected_size` (the overshoot)
instead of the number of in-range bytes whenever a read reaches
`expected_size`, so a 13-byte file declared with size 13 is archived as
one all-zero block and its bytes are lost; and in the shrink case the
tail-padding loop counts 512 per block starting from the bytes actually
read, so a 1-byte file declared with size 1000 yields 3 data blocks,
not ceil(1000/512) = 2. -/
theorem claim_C1 :
    (writeRegularFileConstSize (asc "test content\x0a") 13 = [List.replicate 512 0] ∧
      List.replicate 512 0 ≠ asc "test content\x0a" ++ List.replicate 499 0) ∧
    (writeRegularFileConstSize [97] 1000).length ≠ (1000 + 511) / 512 := by
  refine ⟨⟨?_, ?_⟩, ?_⟩ <;> decide

/-- C10: `write_header` writes the linkname of a SYMLINK entry verbatim
(truncated to the 100-byte field, zero-padded), while a HARDLINK entry's
linkname first passes through the relative-path policy; consequently an
archived symlink target may begin with `'/'` (the verbatim bytes land in
the field, as the witness shows), but an archived hard-link target never
does. -/
theorem claim_C10 :
    (∀ (env : Env) (st : TarState) (n sn ln : List Nat) (m u g sz : Nat) (t : Int)
       (dM dm : Nat),
      st.isOpen = true → ¬ st.streamHeaderPos > -1 →
      (st.mode = .streamOutput ∨ st.pos = st.out.length) →
      relativePath n = .ok sn → ln ≠ [] →
      ∃ H, (writeHeader env st n m u g sz t .symbolicLink dM dm ln).1.out
          = st.out ++ H ∧
        (writeHeader env st n m u g sz t .symbolicLink dM dm ln).2 = none ∧
        slice H 157 100 = ln.take 100 ++ List.replicate (100 - min ln.length 100) 0) ∧
    (∀ (env : Env) (st : TarState) (n sn ln sl : List Nat) (m u g sz : Nat) (t : Int)
       (dM dm : Nat),
      st.isOpen = true → ¬ st.streamHeaderPos > -1 →
      (st.mode = .streamOutput ∨ st.pos = st.out.length) →
      relativePath n = .ok sn → relativePath ln = .ok sl → ln ≠ [] →
      ∃ H, (writeHeader env st n m u g sz t .hardLink dM dm ln).1.out = st.out ++ H ∧
        (writeHeader env st n m u g sz t .hardLink dM dm ln).2 = none ∧
        slice H 157 100 = sl.take 100 ++ List.replicate (100 - min sl.length 100) 0 ∧
        (slice H 157 100).head? ≠ some 47) := by
  have hfield : ∀ (sl : List Nat), sl.head? ≠ some 47 →
      (sl.take 100 ++ List.replicate (100 - min sl.length 100) 0).head? ≠ some 47 := by
    intro sl hh
    cases sl with
    | nil => decide
    | cons c rest =>
      simp only [List.take_succ_cons, List.cons_append, List.head?_cons]
      simpa using hh
  constructor
  · intro env st n sn ln m u g sz t dM dm hopen hpos hmode hsn hln
    have hwh := writeHeader_ok env st n m u g sz t .symbolicLink dM dm ln sn ln
      hpos (fun hc => by rcases hc.2 with h | h <;> cases h)
      (fun hd => by cases hd) (fun hc => absurd hc.2 (by decide)) hsn (by rw [if_pos rfl])
    rw [hwh]
    refine ⟨buildHeaderBlock env st.typ sn ln ln m u g sz t .symbolicLink dM dm,
      write_out_append _ _ hopen hmode, rfl, ?_⟩
    exact slice_buildHeaderBlock_linkname env st.typ sn ln ln m u g sz t
      .symbolicLink dM dm hln
  · intro env st n sn ln sl m u g sz t dM dm hopen hpos hmode hsn hsl hln
    have hwh := writeHeader_ok env st n m u g sz t .hardLink dM dm ln sn sl
      hpos (fun hc => by rcases hc.2 with h | h <;> cases h)
      (fun hd => by cases hd) (fun hc => absurd hc.2 (by decide)) hsn
      (by rw [if_neg (by decide)]; exact hsl)
    rw [hwh]
    refine ⟨buildHeaderBlock env st.typ sn sl ln m u g sz t .hardLink dM dm,
      write_out_append _ _ hopen hmode, rfl, ?_, ?_⟩
    · exact slice_buildHeaderBlock_linkname env st.typ sn sl ln m u g sz t
        .hardLink dM dm hln
    · rw [slice_buildHeaderBlock_linkname env st.typ sn sl ln m u g sz t
        .hardLink dM dm hln]
      exact hfield sl (relativePath_head ln sl hsl)

set_option maxRecDepth 100000 in
/-- Witness for C10: a symlink entry whose target `/etc/passwd` lands
verbatim in the field (leading `'/'` preserved), and a hard-link entry
whose target `/a` is stored as `a`. -/
theorem claim_C10_witness :
    (∃ H, (writeHeader envEmpty (initFile .unixV7 (asc "t.tar")) (asc "lnk") 511 0 0 0 0
        .symbolicLink 0 0 (asc "/etc/passwd")).1.out
          = (initFile .unixV7 (asc "t.tar")).out ++ H ∧
      (writeHeader envEmpty (initFile .unixV7 (asc "t.tar")) (asc "lnk") 511 0 0 0 0
        .symbolicLink 0 0 (asc "/etc/passwd")).2 = none ∧
      slice H 157 100 = (asc "/etc/passwd").take 100 ++
        List.replicate (100 - min (asc "/etc/passwd").length 100) 0) ∧
    (∃ H, (writeHeader envEmpty (initFile .unixV7 (asc "t.tar")) (asc "lnk2") 511 0 0 0 0
        .hardLink 0 0 (asc "/a")).1.out = (initFile .unixV7 (asc "t.tar")).out ++ H ∧
      (writeHeader envEmpty (initFile .unixV7 (asc "t.tar")) (asc "lnk2") 511 0 0 0 0
        .hardLink 0 0 (asc "/a")).2 = none ∧
      slice H 157 100 = (asc "a").take 100 ++
        List.replicate (100 - min (asc "a").length 100) 0 ∧
      (slice H 157 100).head? ≠ some 47) := by
  exact ⟨claim_C10.1 envEmpty (initFile .unixV7 (asc "t.tar")) (asc "lnk") (asc "lnk")
      (asc "/etc/passwd") 511 0 0 0 0 0 0 rfl (by decide) (Or.inr rfl) rfl (by decide),
    claim_C10.2 envEmpty (initFile .unixV7 (asc "t.tar")) (asc "lnk2") (asc "lnk2")
      (asc "/a") (asc "a") 511 0 0 0 0 0 0 rfl (by decide) (Or.inr rfl) rfl rfl
      (by decide)⟩

set_option maxRecDepth 100000 in
/-- C6 counterexample: the spec claims the name set never holds the
archive name of a regular file twice *after normalization*.  Streaming
two regular entries named `/a` and `a` — distinct raw names with the
same normalized archive name `a` — both succeed, so the archive ends up
with two REGULAR entries under the same normalized name. -/
theorem claim_C6_counterexample :
    (streamFileComplete envEmpty
        ((addFileStreaming (initFile .ustar (asc "t.tar"))).1) (asc "/a")
        420 0 0 0 0).2 = none ∧
    (streamFileComplete envEmpty
      ((addFileStreaming
        ((streamFileComplete envEmpty
          ((addFileStreaming (initFile .ustar (asc "t.tar"))).1) (asc "/a")
          420 0 0 0 0).1)).1) (asc "a") 420 0 0 0 0).2 = none ∧
    relativePath (asc "/a") = relativePath (asc "a") ∧
    relativePath (asc "a") = Except.ok (asc "a") := by
  refine ⟨by decide, by decide, rfl, rfl⟩

/-- C6 (amended): the duplicate-name check of `write_header` compares
the *raw* (pre-normalization) name of the new entry against the raw
names of ALL previously admitted entries of any type, and fires only
when the new entry is REGULAR or CONTIGUOUS: (i) a REGULAR or CONTIGUOUS
entry whose raw name was already stored fails with IllegalState, state
unchanged; (ii) a non-regular (here: symlink) entry with a stored name
is accepted; (iii) the check never normalizes, so two REGULAR entries
with distinct raw names but the same normalized archive name are both
accepted. -/
theorem claim_C6 :
    (∀ (env : Env) (st : TarState) (n : List Nat) (m u g sz : Nat) (t : Int)
       (dM dm : Nat) (ln : List Nat) (ft : FileTypeFlag),
      ¬ st.streamHeaderPos > -1 →
      st.storedFiles.contains n = true →
      (ft = .regularFile ∨ ft = .contiguousFile) →
      writeHeader env st n m u g sz t ft dM dm ln = (st, some .illegalState)) ∧
    (∀ (env : Env) (st : TarState) (n sn ln : List Nat) (m u g sz : Nat) (t : Int)
       (dM dm : Nat),
      st.isOpen = true → ¬ st.streamHeaderPos > -1 →
      (st.mode = .streamOutput ∨ st.pos = st.out.length) →
      relativePath n = .ok sn →
      st.storedFiles.contains n = true →
      (writeHeader env st n m u g sz t .symbolicLink dM dm ln).2 = none) ∧
    ((writeHeader envEmpty (initFile .ustar (asc "t.tar")) (asc "/a")
        420 0 0 0 0 .regularFile 0 0 []).2 = none ∧
      (writeHeader envEmpty
        (writeHeader envEmpty (initFile .ustar (asc "t.tar")) (asc "/a")
          420 0 0 0 0 .regularFile 0 0 []).1 (asc "a")
        420 0 0 0 0 .regularFile 0 0 []).2 = none ∧
      relativePath (asc "/a") = Except.ok (asc "a")) := by
  refine ⟨?_, ?_, ?_⟩
  · intro env st n m u g sz t dM dm ln ft hpos hdup hft
    simp only [writeHeader]
    rw [if_neg hpos, if_pos ⟨by simpa using hdup, hft⟩]
  · intro env st n sn ln m u g sz t dM dm hopen hpos hmode hsn hdup
    rw [writeHeader_ok env st n m u g sz t .symbolicLink dM dm ln sn ln hpos
      (fun hc => by rcases hc.2 with h | h <;> cases h)
      (fun hd => by cases hd) (fun hc => absurd hc.2 (by decide)) hsn
      (by rw [if_pos rfl])]
  · exact ⟨by decide, by decide, rfl⟩

set_option maxRecDepth 100000 in
/-- Witness for C6: on a writer that already stored the raw name `a`, a
second REGULAR `a` is rejected with IllegalState while a symlink named
`a` is accepted. -/
theorem claim_C6_witness :
    writeHeader envEmpty stDupA (asc "a") 420 0 0 0 0 .regularFile 0 0 []
        = (stDupA, some .illegalState) ∧
    (writeHeader envEmpty stDupA (asc "a") 420 0 0 0 0 .symbolicLink 0 0
        (asc "t")).2 = none :=
  ⟨claim_C6.1 envEmpty stDupA (asc "a") 420 0 0 0 0 0 0 [] .regularFile
      (by decide) (by decide) (Or.inl rfl),
    claim_C6.2.1 envEmpty stDupA (asc "a") (asc "a") (asc "t") 420 0 0 0 0 0 0
      rfl (by decide) (Or.inr rfl) rfl (by decide)⟩

set_option maxRecDepth 1000000 in
/-- C5 counterexample: the spec claims that *whenever* two admitted
paths resolve to the same inode the second becomes a HARDLINK entry.
`file_equivalent_present` only consults the inode map when the stat'ed
`st_nlink` is greater than 1, so admitting the same path `/a` twice for
a file with `nlink = 1` is not coalesced: the second admission attempts
a second REGULAR entry under the same name and fails with IllegalState
instead of emitting a HARDLINK entry. -/
theorem claim_C5_counterexample :
    (addATwice1 1).2 = none ∧ (addATwice2 1).2 = some .illegalState := by
  exact ⟨by decide, by decide⟩

set_option maxRecDepth 1000000 in
/-- C5 (amended): hard-link coalescing only happens when the host file
has `st_nlink > 1`.  In that case admitting `/a` twice emits a REGULAR
first entry (typeflag `'0'` at byte 156) and a HARDLINK second entry
(typeflag `'1'` at byte 1024+156) whose linkname field holds the
stored source path after relative-path normalization (`a`) and whose
size field is octal 0; the second entry consists of the header block
only (total output 3 × 512 bytes: first header, first data block,
second header). -/
theorem claim_C5 :
    (addATwice1 2).2 = none ∧ (addATwice2 2).2 = none ∧
    (addATwice2 2).1.out[156]? = some 48 ∧
    (addATwice2 2).1.out[1180]? = some 49 ∧
    slice (addATwice2 2).1.out 1181 100 = asc "a" ++ List.replicate 99 0 ∧
    slice (addATwice2 2).1.out 1148 12 = toOctalAscii 0 12 ∧
    (addATwice2 2).1.out.length = 1536 := by
  exact ⟨by decide, by decide, by decide, by decide, by decide, by decide, by decide⟩

theorem write_streamHeaderPos (st : TarState) (b : List Nat) :
    (write st b).streamHeaderPos = st.streamHeaderPos := by
  unfold write
  repeat' split
  all_goals rfl

theorem writeHeader_streamHeaderPos (env : Env) (st : TarState) (n : List Nat)
    (m u g sz : Nat) (t : Int) (ft : FileTypeFlag) (dM dm : Nat) (ln : List Nat) :
    (writeHeader env st n m u g sz t ft dM dm ln).1.streamHeaderPos
      = st.streamHeaderPos := by
  simp only [writeHeader]
  repeat' split
  all_goals simp [write_streamHeaderPos]

/-- A `stream_file_complete` call entered with the cursor set always
leaves it at −1 (the member is reset before the header write). -/
theorem streamFileComplete_clears (env : Env) (st : TarState) (fn : List Nat)
    (m u g sz : Nat) (t : Int) (hpos : ¬ st.streamHeaderPos < 0) :
    (streamFileComplete env st fn m u g sz t).1.streamHeaderPos = -1 := by
  simp only [streamFileComplete]
  rw [if_neg hpos]
  split
  · rename_i st3 e hw
    have h2 := congrArg (fun p => p.1.streamHeaderPos) hw
    simp only [writeHeader_streamHeaderPos] at h2
    exact h2.symm
  · rename_i st3 hw
    have h2 := congrArg (fun p => p.1.streamHeaderPos) hw
    simp only [writeHeader_streamHeaderPos] at h2
    exact h2.symm

set_option maxRecDepth 100000 in
/-- C7 counterexample: the spec claims a mid-flight failure of
`stream_file_complete` leaves `stream_header_pos` non-negative so the
call can be retried.  The code resets `stream_file_header_pos_` to −1
*before* invoking `write_header`; when the header write fails (here: a
duplicate regular name), the failed completion leaves the cursor at −1
and the retry is rejected with IllegalState. -/
theorem claim_C7_counterexample :
    (streamFileComplete envEmpty ((addFileStreaming stDupA).1) (asc "a")
        420 0 0 0 0).2 = some .illegalState ∧
    (streamFileComplete envEmpty ((addFileStreaming stDupA).1) (asc "a")
        420 0 0 0 0).1.streamHeaderPos = -1 ∧
    (streamFileComplete envEmpty
        (streamFileComplete envEmpty ((addFileStreaming stDupA).1) (asc "a")
          420 0 0 0 0).1 (asc "a") 420 0 0 0 0).2 = some .illegalState := by
  exact ⟨by decide, by decide, by decide⟩

/-- C7 (amended): every `stream_file_complete` call entered with a
streaming entry in progress — whether it succeeds or the inner header
write fails — leaves `stream_header_pos` at −1, so a failed completion
cannot be retried; `close` performs finalization (the `finish` trailer)
regardless of the streaming state. -/
theorem claim_C7 :
    (∀ (env : Env) (st : TarState) (fn : List Nat) (m u g sz : Nat) (t : Int),
      ¬ st.streamHeaderPos < 0 →
      (streamFileComplete env st fn m u g sz t).1.streamHeaderPos = -1) ∧
    (∀ (st : TarState), st.isOpen = true → ¬ st.streamHeaderPos < 0 →
      close st = { finish st with isOpen := false }) := by
  constructor
  · intro env st fn m u g sz t hpos
    exact streamFileComplete_clears env st fn m u g sz t hpos
  · intro st hopen hsp
    simp only [close]
    rw [if_pos (by simpa using hopen)]

set_option maxRecDepth 100000 in
/-- Witness for C7: a successful completion of a streaming entry resets
the cursor to −1, and `close` finalizes a writer that is still inside a
streaming entry. -/
theorem claim_C7_witness :
    (streamFileComplete envEmpty ((addFileStreaming (initFile .ustar (asc "t.tar"))).1)
        (asc "f") 420 0 0 0 0).1.streamHeaderPos = -1 ∧
    close ((addFileStreaming (initFile .ustar (asc "t.tar"))).1)
      = { finish ((addFileStreaming (initFile .ustar (asc "t.tar"))).1) with
          isOpen := false } :=
  ⟨claim_C7.1 envEmpty ((addFileStreaming (initFile .ustar (asc "t.tar"))).1)
      (asc "f") 420 0 0 0 0 (by decide),
    claim_C7.2 ((addFileStreaming (initFile .ustar (asc "t.tar"))).1)
      (by decide) (by decide)⟩

theorem emitWhileF_spec : ∀ (fuel : Nat) (l : List Nat), l.length ≤ 512 * fuel + 511 →
    (emitWhileF fuel l).1.flatten = l.take (512 * (l.length / 512)) ∧
    (emitWhileF fuel l).2 = l.drop (512 * (l.length / 512))
  | 0, l, h => by
    have h0 : l.length / 512 = 0 := Nat.div_eq_of_lt (by omega)
    simp [emitWhileF, h0]
  | fuel + 1, l, h => by
    by_cases hl : 512 ≤ l.length
    · have hrec := emitWhileF_spec fuel (l.drop 512) (by simp; omega)
      have hq : l.length / 512 = (l.drop 512).length / 512 + 1 := by
        rw [List.length_drop]
        omega
      simp only [emitWhileF, if_pos hl]
      constructor
      · rw [List.flatten_cons, hrec.1, hq, Nat.mul_add, Nat.mul_one,
          Nat.add_comm (512 * _) 512, List.take_add]
      · rw [hrec.2, List.drop_drop, hq, Nat.mul_add, Nat.mul_one, Nat.add_comm]
    · have h0 : l.length / 512 = 0 := Nat.div_eq_of_lt (by omega)
      simp [emitWhileF, if_neg hl, h0]

theorem emitWhile_spec (l : List Nat) :
    (emitWhile l).1.flatten = l.take (512 * (l.length / 512)) ∧
    (emitWhile l).2 = l.drop (512 * (l.length / 512)) :=
  emitWhileF_spec l.length l (by omega)

theorem write_file_eq (st : TarState) (b : List Nat) (hopen : st.isOpen = true)
    (hmode : st.mode = .fileOutput) (hpos : st.pos = st.out.length) :
    write st b = { st with out := st.out ++ b, pos := st.pos + b.length } := by
  unfold write
  rw [if_neg (by simp [hopen]), hmode]
  rw [hpos, writeBytesAt_append]

theorem foldl_write_file (bs : List (List Nat)) (st : TarState)
    (hopen : st.isOpen = true) (hmode : st.mode = .fileOutput)
    (hpos : st.pos = st.out.length) :
    bs.foldl write st
      = { st with out := st.out ++ bs.flatten, pos := st.pos + bs.flatten.length } := by
  induction bs generalizing st with
  | nil => simp
  | cons b rest ih =>
    rw [List.foldl_cons, write_file_eq st b hopen hmode hpos,
      ih { st with out := st.out ++ b, pos := st.pos + b.length } hopen hmode
        (by simp [hpos])]
    simp [List.append_assoc, Nat.add_assoc]

theorem addFileStreamingData_eq (st : TarState) (c : List Nat)
    (hopen : st.isOpen = true) (hmode : st.mode = .fileOutput)
    (hpos : st.pos = st.out.length) (hsp : ¬ st.streamHeaderPos < 0)
    (hcar : st.streamBlock.length < 512) :
    addFileStreamingData st c =
      ({ st with
          out := st.out ++ (st.streamBlock ++ c).take
            (512 * ((st.streamBlock.length + c.length) / 512)),
          pos := st.pos + 512 * ((st.streamBlock.length + c.length) / 512),
          streamBlock := (st.streamBlock ++ c).drop
            (512 * ((st.streamBlock.length + c.length) / 512)) }, none) := by
  simp only [addFileStreamingData]
  rw [if_neg (by simp [hopen]), if_neg hsp]
  by_cases hbig : 512 ≤ st.streamBlock.length + c.length
  · rw [if_pos hbig]
    have hb1 : st.streamBlock ++ c.take (512 - st.streamBlock.length)
        = (st.streamBlock ++ c).take 512 := by
      rw [List.take_append_eq_append_take,
        show st.streamBlock.take 512 = st.streamBlock from
          List.take_of_length_le (by omega)]
    have hrest : c.drop (512 - st.streamBlock.length)
        = (st.streamBlock ++ c).drop 512 := by
      rw [List.drop_append_eq_append_drop,
        show st.streamBlock.drop 512 = [] from
          List.drop_eq_nil_of_le (by omega), List.nil_append]
    have hq : 512 * ((st.streamBlock.length + c.length) / 512)
        = 512 + 512 * ((st.streamBlock.length + c.length - 512) / 512) := by
      omega
    rw [hb1, hrest,
      write_file_eq st ((st.streamBlock ++ c).take 512) hopen hmode hpos,
      foldl_write_file (emitWhile ((st.streamBlock ++ c).drop 512)).1
        { st with
          out := st.out ++ (st.streamBlock ++ c).take 512,
          pos := st.pos + ((st.streamBlock ++ c).take 512).length }
        hopen hmode (by simp [hpos]),
      (emitWhile_spec _).1, (emitWhile_spec _).2]
    simp only [Prod.mk.injEq, and_true, TarState.mk.injEq, true_and,
      List.length_drop, List.length_append, List.length_take]
    refine ⟨?_, ?_, ?_⟩
    · rw [List.append_assoc, hq, List.take_add]
    · omega
    · rw [List.drop_drop, hq]
  · rw [if_neg hbig]
    have h0 : (st.streamBlock.length + c.length) / 512 = 0 :=
      Nat.div_eq_of_lt (by omega)
    simp [h0]

theorem take_chain (l f : List Nat) (k k' : Nat) (hk : k ≤ l.length) :
    l.take k ++ (l.drop k ++ f).take k' = (l ++ f).take (k + k') := by
  rw [List.take_add, List.take_append_of_le_length hk,
    List.drop_append_of_le_length hk]

theorem drop_chain (l f : List Nat) (k k' : Nat) (hk : k ≤ l.length) :
    (l.drop k ++ f).drop k' = (l ++ f).drop (k + k') := by
  rw [← List.drop_append_of_le_length hk, List.drop_drop]

theorem feedAll_spec (cs : List (List Nat)) (st : TarState)
    (hopen : st.isOpen = true) (hmode : st.mode = .fileOutput)
    (hpos : st.pos = st.out.length) (hsp : ¬ st.streamHeaderPos < 0)
    (hcar : st.streamBlock.length < 512) :
    feedAll st cs =
      ({ st with
          out := st.out ++ (st.streamBlock ++ cs.flatten).take
            (512 * ((st.streamBlock.length + cs.flatten.length) / 512)),
          pos := st.pos + 512 * ((st.streamBlock.length + cs.flatten.length) / 512),
          streamBlock := (st.streamBlock ++ cs.flatten).drop
            (512 * ((st.streamBlock.length + cs.flatten.length) / 512)) }, none) := by
  induction cs generalizing st with
  | nil =>
    have h0 : st.streamBlock.length / 512 = 0 := Nat.div_eq_of_lt hcar
    simp [feedAll, h0]
  | cons c rest ih =>
    have hR := addFileStreamingData_eq st c hopen hmode hpos hsp hcar
    simp only [feedAll, hR]
    rw [ih { st with
             out := st.out ++ (st.streamBlock ++ c).take
               (512 * ((st.streamBlock.length + c.length) / 512)),
             pos := st.pos + 512 * ((st.streamBlock.length + c.length) / 512),
             streamBlock := (st.streamBlock ++ c).drop
               (512 * ((st.streamBlock.length + c.length) / 512)) }
      hopen hmode
      (by simp [hpos, List.length_take, List.length_append]; omega)
      hsp
      (by simp only [List.length_drop, List.length_append]; omega)]
    simp only [Prod.mk.injEq, and_true, TarState.mk.injEq, true_and,
      List.length_drop, List.length_append, List.flatten_cons]
    have hk : 512 * ((st.streamBlock.length + c.length) / 512)
        ≤ (st.streamBlock ++ c).length := by
      simp only [List.length_append]
      omega
    have hKK : 512 * ((st.streamBlock.length + c.length) / 512) +
        512 * ((st.streamBlock.length + c.length -
          512 * ((st.streamBlock.length + c.length) / 512) +
          rest.flatten.length) / 512)
        = 512 * ((st.streamBlock.length + (c.length + rest.flatten.length)) / 512) := by
      omega
    refine ⟨?_, ?_, ?_⟩
    · rw [List.append_assoc, ← List.append_assoc st.streamBlock c rest.flatten,
        take_chain _ _ _ _ hk, hKK]
    · omega
    · rw [← List.append_assoc st.streamBlock c rest.flatten,
        drop_chain _ _ _ _ hk, hKK]

theorem write_file_overwrite (st : TarState) (b : List Nat)
    (hopen : st.isOpen = true) (hmode : st.mode = .fileOutput)
    (hpos : st.pos = 0) (hlen : b.length ≤ st.out.length) :
    write st b = { st with out := b ++ st.out.drop b.length, pos := b.length } := by
  unfold write
  rw [if_neg (by simp [hopen]), hmode, hpos]
  simp only [writeBytesAt]
  rw [show 0 + b.length - st.out.length = 0 from by omega]
  simp

theorem drop512_replicate (x : List Nat) :
    (List.replicate 512 (0 : Nat) ++ x).drop 512 = x := by
  rw [List.drop_append_of_le_length (by rw [List.length_replicate]),
    List.drop_eq_nil_of_le (by rw [List.length_replicate]), List.nil_append]

theorem streamFileComplete_spec (env : Env) (st : TarState) (fn sn : List Nat)
    (m u g sz : Nat) (t : Int)
    (hopen : st.isOpen = true) (hmode : st.mode = .fileOutput)
    (hpos : st.pos = st.out.length)
    (hsp : st.streamHeaderPos = 0)
    (hout : 512 <= st.out.length)
    (hcar : st.streamBlock.length < 512)
    (hdup : st.storedFiles = [])
    (hsn : relativePath fn = .ok sn) :
    (streamFileComplete env st fn m u g sz t).2 = none /\
    (streamFileComplete env st fn m u g sz t).1.out
      = buildHeaderBlock env st.typ sn [] [] m u g sz t .regularFile 0 0
        ++ (st.out ++ (st.streamBlock ++
            List.replicate ((512 - st.streamBlock.length % 512) % 512) 0)).drop 512 := by
  obtain ⟨typ, mode, op, fname, out, pos, cbs, shp, sb, si, sf⟩ := st
  dsimp only at hopen hmode hpos hsp hout hcar hdup ⊢
  subst hopen hmode hpos hsp hdup
  by_cases hc : 0 < sb.length
  · simp only [streamFileComplete]
    rw [if_neg (by decide), if_pos hc,
      write_file_eq ⟨typ, .fileOutput, true, fname, out, out.length, cbs, 0, [], si, []⟩
        (sb ++ List.replicate (512 - sb.length) 0) rfl rfl rfl]
    dsimp only [Int.toNat_zero]
    rw [writeHeader_ok env
        ⟨typ, .fileOutput, true, fname, out ++ (sb ++ List.replicate (512 - sb.length) 0),
          0, cbs, -1, [], si, []⟩
        fn m u g sz t .regularFile 0 0 [] sn []
        (by simp) (fun hcx => by simp at hcx) (by decide)
        (fun hcx => absurd hcx.2 (by decide)) hsn (by rw [if_neg (by decide)]; rfl)]
    dsimp only
    rw [write_file_overwrite
        ⟨typ, .fileOutput, true, fname, out ++ (sb ++ List.replicate (512 - sb.length) 0),
          0, cbs, -1, [], si, [fn]⟩
        (buildHeaderBlock env typ sn [] [] m u g sz t .regularFile 0 0)
        rfl rfl rfl
        (by rw [length_buildHeaderBlock]; dsimp only; simp; omega)]
    dsimp only
    refine ⟨rfl, ?_⟩
    rw [length_buildHeaderBlock,
      show (512 - sb.length % 512) % 512 = 512 - sb.length from by omega]
  · have h0 : sb = [] := List.eq_nil_of_length_eq_zero (by omega)
    subst h0
    simp only [streamFileComplete]
    rw [if_neg (by decide), if_neg (by decide)]
    dsimp only [Int.toNat_zero]
    rw [writeHeader_ok env
        ⟨typ, .fileOutput, true, fname, out, 0, cbs, -1, [], si, []⟩
        fn m u g sz t .regularFile 0 0 [] sn []
        (by simp) (fun hcx => by simp at hcx) (by decide)
        (fun hcx => absurd hcx.2 (by decide)) hsn (by rw [if_neg (by decide)]; rfl)]
    dsimp only
    rw [write_file_overwrite
        ⟨typ, .fileOutput, true, fname, out, 0, cbs, -1, [], si, [fn]⟩
        (buildHeaderBlock env typ sn [] [] m u g sz t .regularFile 0 0)
        rfl rfl rfl
        (by rw [length_buildHeaderBlock]; dsimp only; exact hout)]
    dsimp only
    refine ⟨rfl, ?_⟩
    rw [length_buildHeaderBlock]
    simp

set_option maxRecDepth 400000 in
theorem streamScenario_spec (env : Env) (cs : List (List Nat)) (fn sn : List Nat)
    (m u g sz : Nat) (t : Int) (hsn : relativePath fn = .ok sn) :
    (streamScenario env cs fn m u g sz t).2 = none /\
    (streamScenario env cs fn m u g sz t).1.out
      = buildHeaderBlock env .ustar sn [] [] m u g sz t .regularFile 0 0
        ++ padTo512 cs.flatten := by
  have hs1 : addFileStreaming (initFile .ustar (asc "t.tar"))
      = (⟨.ustar, .fileOutput, true, asc "t.tar", List.replicate 512 0, 512,
          [], 0, [], [], []⟩, none) := by
    rfl
  simp only [streamScenario]
  rw [hs1]
  dsimp only
  rw [feedAll_spec cs
      ⟨.ustar, .fileOutput, true, asc "t.tar", List.replicate 512 0, 512,
        [], 0, [], [], []⟩
      rfl rfl (by rw [List.length_replicate]) (by decide) (by decide)]
  simp only [List.nil_append, List.length_nil, Nat.zero_add]
  have hfin := streamFileComplete_spec env
    ⟨.ustar, .fileOutput, true, asc "t.tar",
      List.replicate 512 0 ++ cs.flatten.take (512 * (cs.flatten.length / 512)),
      512 + 512 * (cs.flatten.length / 512), [], 0,
      cs.flatten.drop (512 * (cs.flatten.length / 512)), [], []⟩
    fn sn m u g sz t rfl rfl
    (by dsimp only; simp [List.length_replicate]; omega)
    rfl
    (by dsimp only; simp [List.length_replicate])
    (by dsimp only; simp; omega)
    rfl hsn
  refine ⟨hfin.1, ?_⟩
  rw [hfin.2]
  dsimp only
  rw [List.append_assoc (List.replicate 512 0), drop512_replicate]
  rw [<- List.append_assoc (cs.flatten.take (512 * (cs.flatten.length / 512))),
    List.take_append_drop]
  rw [show (512 - (cs.flatten.drop (512 * (cs.flatten.length / 512))).length % 512) % 512
      = (512 - cs.flatten.length % 512) % 512 from by simp; omega]
  rfl

set_option maxRecDepth 400000 in
/-- C3 counterexample: the spec claims streaming a byte sequence `B`
produces the same archive bytes as a const-size write of `B`.  For
`B = [97]` with declared size 1 the streaming path stores the data block
`97, 0, ..., 0`, while `write_regular_file_const_size` — because of its
`write_size` bug — emits one all-zero block, so the two archives
differ. -/
theorem claim_C3_counterexample :
    (streamScenario envEmpty [[97]] (asc "f") 420 0 0 1 0).1.out
      = buildHeaderBlock envEmpty .ustar (asc "f") [] [] 420 0 0 1 0 .regularFile 0 0
        ++ ([97] ++ List.replicate 511 0) ∧
    (writeRegularFileConstSize [97] 1).flatten = List.replicate 512 0 ∧
    ([97] ++ List.replicate 511 0 : List Nat) ≠ List.replicate 512 0 := by
  refine ⟨?_, by decide, by decide⟩
  rw [(streamScenario_spec envEmpty [[97]] (asc "f") (asc "f") 420 0 0 1 0 rfl).2,
    show padTo512 ([[97]] : List (List Nat)).flatten = [97] ++ List.replicate 511 0
      from by decide]

/-- C3 (amended): the chunking-independence half of the claim holds —
for every byte sequence, every chunking of it, and every descriptor, the
streaming call sequence succeeds and produces exactly the header block
followed by the payload zero-padded to a multiple of 512, a result that
depends only on the concatenation of the chunks.  (The other half of
the claim — agreement with the const-size writer — is false, see the
counterexample: the const-size writer mangles the final partial
block.) -/
theorem claim_C3 (env : Env) (cs : List (List Nat)) (fn sn : List Nat)
    (m u g sz : Nat) (t : Int) (hsn : relativePath fn = .ok sn) :
    (streamScenario env cs fn m u g sz t).2 = none ∧
    (streamScenario env cs fn m u g sz t).1.out
      = buildHeaderBlock env .ustar sn [] [] m u g sz t .regularFile 0 0
        ++ padTo512 cs.flatten :=
  streamScenario_spec env cs fn sn m u g sz t hsn

set_option maxRecDepth 400000 in
/-- Witness for C3: streaming the two chunks `[97]` and `[98]`. -/
theorem claim_C3_witness :
    (streamScenario envEmpty [[97], [98]] (asc "f") 420 0 0 2 0).2 = none ∧
    (streamScenario envEmpty [[97], [98]] (asc "f") 420 0 0 2 0).1.out
      = buildHeaderBlock envEmpty .ustar (asc "f") [] [] 420 0 0 2 0 .regularFile 0 0
        ++ padTo512 [97, 98] :=
  claim_C3 envEmpty [[97], [98]] (asc "f") (asc "f") 420 0 0 2 0 rfl


/-! ## Preservation lemmas, the reachable-state invariant, and the
streaming-exclusion claims -/

theorem Pres.refl (st : TarState) : Pres st st :=
  ⟨id, rfl, rfl, rfl⟩

theorem Pres.trans {s1 s2 s3 : TarState} (h1 : Pres s1 s2) (h2 : Pres s2 s3) :
    Pres s1 s3 :=
  ⟨fun h => h2.1 (h1.1 h), h2.2.1.trans h1.2.1, h2.2.2.1.trans h1.2.2.1,
    h2.2.2.2.trans h1.2.2.2⟩

theorem Pres.pos {st A : TarState} (p : Nat) (h : Pres st A) :
    Pres st { A with pos := p } :=
  ⟨h.1, h.2.1, h.2.2.1, h.2.2.2⟩

theorem write_pres (st : TarState) (b : List Nat) (hb : b.length = 512) :
    Pres st (write st b) := by
  unfold write
  split
  · exact Pres.refl st
  · split
    · refine ⟨?_, rfl, rfl, rfl⟩
      intro h s hs
      simp only [List.mem_append, List.mem_singleton] at hs
      rcases hs with hs | hs
      · exact h s hs
      · rw [hs, hb]
    · exact ⟨fun h => h, rfl, rfl, rfl⟩

theorem foldl_write_pres (bs : List (List Nat)) (st : TarState)
    (hbs : ∀ b ∈ bs, b.length = 512) : Pres st (bs.foldl write st) := by
  induction bs generalizing st with
  | nil => exact Pres.refl st
  | cons b rest ih =>
    rw [List.foldl_cons]
    exact (write_pres st b (hbs b (by simp))).trans
      (ih (write st b) (fun x hx => hbs x (by simp [hx])))

theorem pres_update_stored (st : TarState) (n : List Nat) :
    Pres st { st with storedFiles := n :: st.storedFiles } :=
  ⟨fun h => h, rfl, rfl, rfl⟩

theorem writeHeader_pres (env : Env) (st : TarState) (n : List Nat)
    (m u g sz : Nat) (t : Int) (ft : FileTypeFlag) (dM dm : Nat) (ln : List Nat) :
    Pres st (writeHeader env st n m u g sz t ft dM dm ln).1 := by
  simp only [writeHeader]
  repeat' split
  all_goals
    first
      | exact Pres.refl st
      | exact (pres_update_stored st _).trans
          (write_pres _ _ (length_buildHeaderBlock env st.typ _ _ _ m u g sz t _ dM dm))

theorem emitWhileF_blocks : ∀ (fuel : Nat) (l : List Nat) (b : List Nat),
    b ∈ (emitWhileF fuel l).1 → b.length = 512
  | 0, l, b, h => by simp [emitWhileF] at h
  | fuel + 1, l, b, h => by
    simp only [emitWhileF] at h
    split at h
    · rename_i hl
      simp only [List.mem_cons] at h
      rcases h with h | h
      · rw [h, List.length_take]
        omega
      · exact emitWhileF_blocks fuel (l.drop 512) b h
    · simp at h

theorem constSizeLoopF_blocks : ∀ (fuel : Nat) (f : List Nat) (e p : Nat) (g : Bool)
    (b : List Nat), b ∈ (constSizeLoopF fuel f e p g).1 → b.length = 512
  | 0, f, e, p, g, b, h => by simp [constSizeLoopF] at h
  | fuel + 1, f, e, p, g, b, h => by
    simp only [constSizeLoopF] at h
    split at h
    · rename_i hg
      simp only [List.mem_cons] at h
      rcases h with h | h
      · rw [h]
        simp only [List.length_append, List.length_take, List.length_replicate]
        have h1 : (f.take 512).length ≤ 512 := by
          rw [List.length_take]; omega
        split <;> omega
      · exact constSizeLoopF_blocks fuel (f.drop 512) e _ _ b h
    · simp at h

theorem padLoopF_blocks : ∀ (fuel p e : Nat) (b : List Nat),
    b ∈ padLoopF fuel p e → b.length = 512
  | 0, p, e, b, h => by simp [padLoopF] at h
  | fuel + 1, p, e, b, h => by
    simp only [padLoopF] at h
    split at h
    · simp only [List.mem_cons] at h
      rcases h with h | h
      · rw [h, List.length_replicate]
      · exact padLoopF_blocks fuel _ e b h
    · simp at h

theorem writeRegularFileConstSize_blocks (f : List Nat) (e : Nat) (b : List Nat)
    (h : b ∈ writeRegularFileConstSize f e) : b.length = 512 := by
  simp only [writeRegularFileConstSize, List.mem_append] at h
  rcases h with h | h
  · exact constSizeLoopF_blocks _ f e 0 true b h
  · exact padLoopF_blocks _ _ e b h

theorem dynSizeLoopF_blocks : ∀ (fuel : Nat) (f : List Nat) (p : Nat) (g : Bool)
    (b : List Nat), b ∈ (dynSizeLoopF fuel f p g).1 → b.length = 512
  | 0, f, p, g, b, h => by simp [dynSizeLoopF] at h
  | fuel + 1, f, p, g, b, h => by
    simp only [dynSizeLoopF] at h
    split at h
    · split at h
      · simp at h
      · rename_i hrd
        simp only [List.mem_cons] at h
        rcases h with h | h
        · rw [h]
          simp only [List.length_append, List.length_take, List.length_replicate]
          have h1 : (f.take 512).length ≤ 512 := by
            rw [List.length_take]; omega
          omega
        · exact dynSizeLoopF_blocks fuel (f.drop 512) _ _ b h
    · simp at h

set_option maxHeartbeats 1600000 in
theorem readFromFilesystemWriteToTar_pres (env : Env) (st : TarState)
    (sp tp : List Nat) (rs : Bool) :
    Pres st (readFromFilesystemWriteToTar env st sp tp rs).1 := by
  simp only [readFromFilesystemWriteToTar]
  repeat' split
  all_goals
    first
      | exact Pres.refl st
      | skip
  all_goals
    rename writeHeader _ _ _ _ _ _ _ _ _ _ _ _ = _ => heq
  all_goals
    have h2 := congrArg Prod.fst heq
  all_goals
    try dsimp only at h2
  all_goals
    rw [← h2]
  all_goals
    first
    | (refine Pres.trans ?_
        (foldl_write_pres _ _ (fun b hb => writeRegularFileConstSize_blocks _ _ b hb))
       refine Pres.trans ?_ (writeHeader_pres _ _ _ _ _ _ _ _ _ _ _ _)
       exact ⟨fun h => h, rfl, rfl, rfl⟩)
    | (apply Pres.pos
       refine Pres.trans ?_ (writeHeader_pres _ _ _ _ _ _ _ _ _ _ _ _)
       first
         | exact ⟨fun h => h, rfl, rfl, rfl⟩
         | (apply Pres.pos
            split
            all_goals try dsimp only
            all_goals
              first
                | (refine Pres.trans ?_
                     (foldl_write_pres _ _ (fun b hb => dynSizeLoopF_blocks _ _ _ _ b hb))
                   refine Pres.trans ?_ (write_pres _ _ (by rw [List.length_replicate]))
                   exact ⟨fun h => h, rfl, rfl, rfl⟩)
                | (refine Pres.trans ?_ (write_pres _ _ (by rw [List.length_replicate]))
                   exact ⟨fun h => h, rfl, rfl, rfl⟩)))

theorem addFromFilesystem1_pres (env : Env) (st : TarState) (p : List Nat) (rs : Bool) :
    Pres st (addFromFilesystem1 env st p rs).1 := by
  simp only [addFromFilesystem1]
  split
  · exact Pres.refl st
  · exact readFromFilesystemWriteToTar_pres env st p p rs

theorem addFromFilesystem2_pres (env : Env) (st : TarState) (sp tp : List Nat)
    (rs : Bool) : Pres st (addFromFilesystem2 env st sp tp rs).1 := by
  simp only [addFromFilesystem2]
  repeat' split
  all_goals
    first
      | exact Pres.refl st
      | exact readFromFilesystemWriteToTar_pres env st sp tp rs

theorem runAll_pres (f : TarState → List Nat → TarState × Option Err)
    (hf : ∀ s p, Pres s (f s p).1) :
    ∀ (ps : List (List Nat)) (st : TarState), Pres st (runAll st ps f).1
  | [], st => Pres.refl st
  | p :: rest, st => by
    simp only [runAll]
    split
    · rename_i st1 e heq
      have h2 := congrArg Prod.fst heq
      dsimp only at h2
      rw [← h2]
      exact hf st p
    · rename_i st1 heq
      have h2 := congrArg Prod.fst heq
      dsimp only at h2
      rw [← h2]
      exact (hf st p).trans (runAll_pres f hf rest (f st p).1)

theorem addFromFilesystemRecursive1_pres (env : Env) (st : TarState) (p : List Nat)
    (rs : Bool) : Pres st (addFromFilesystemRecursive1 env st p rs).1 := by
  simp only [addFromFilesystemRecursive1]
  repeat' split
  all_goals
    first
      | exact Pres.refl st
      | exact addFromFilesystem1_pres env st p rs
      | exact runAll_pres _ (fun s q => addFromFilesystem1_pres env s q rs) _ st

theorem addFromFilesystemRecursive2_pres (env : Env) (st : TarState)
    (sp tp : List Nat) (rs : Bool) :
    Pres st (addFromFilesystemRecursive2 env st sp tp rs).1 := by
  simp only [addFromFilesystemRecursive2]
  repeat' split
  all_goals
    first
      | exact Pres.refl st
      | exact addFromFilesystem2_pres env st sp _ rs
      | exact runAll_pres _ (fun s q => addFromFilesystem2_pres env s q _ rs) _ st

theorem addSymlink_pres (env : Env) (st : TarState) (f l : List Nat) (u g : Nat)
    (t : Int) : Pres st (addSymlink env st f l u g t).1 := by
  simp only [addSymlink]
  split
  · exact Pres.refl st
  · exact writeHeader_pres _ _ _ _ _ _ _ _ _ _ _ _

theorem addHardlink_pres (env : Env) (st : TarState) (f l : List Nat) (u g : Nat)
    (t : Int) : Pres st (addHardlink env st f l u g t).1 := by
  simp only [addHardlink]
  split
  · exact Pres.refl st
  · exact writeHeader_pres _ _ _ _ _ _ _ _ _ _ _ _

theorem addCharacterSpecialFile_pres (env : Env) (st : TarState) (n : List Nat)
    (m u g sz : Nat) (t : Int) (ma mi : Nat) :
    Pres st (addCharacterSpecialFile env st n m u g sz t ma mi).1 := by
  simp only [addCharacterSpecialFile]
  split
  · exact Pres.refl st
  · exact writeHeader_pres _ _ _ _ _ _ _ _ _ _ _ _

theorem addBlockSpecialFile_pres (env : Env) (st : TarState) (n : List Nat)
    (m u g sz : Nat) (t : Int) (ma mi : Nat) :
    Pres st (addBlockSpecialFile env st n m u g sz t ma mi).1 := by
  simp only [addBlockSpecialFile]
  split
  · exact Pres.refl st
  · exact writeHeader_pres _ _ _ _ _ _ _ _ _ _ _ _

theorem addFifo_pres (env : Env) (st : TarState) (n : List Nat) (m u g : Nat)
    (t : Int) : Pres st (addFifo env st n m u g t).1 := by
  simp only [addFifo]
  split
  · exact Pres.refl st
  · exact writeHeader_pres _ _ _ _ _ _ _ _ _ _ _ _

theorem addDirectory_pres (env : Env) (st : TarState) (n : List Nat) (m u g : Nat)
    (t : Int) : Pres st (addDirectory env st n m u g t).1 := by
  simp only [addDirectory]
  split
  · exact Pres.refl st
  · exact writeHeader_pres _ _ _ _ _ _ _ _ _ _ _ _

theorem close_pres (st : TarState) : Pres st (close st) := by
  simp only [close, finish]
  split
  · exact ((write_pres st _ (by rw [List.length_replicate])).trans
      (write_pres _ _ (by rw [List.length_replicate]))).trans
      ⟨fun h => h, rfl, rfl, rfl⟩
  · exact Pres.refl st

theorem Pres.stinv {st st' : TarState} (h : Pres st st') (hI : StInv st) :
    StInv st' := by
  obtain ⟨hs, hm, hsp, hsb⟩ := h
  refine ⟨hs hI.1, ?_, ?_⟩
  · intro hm2
    rw [hsp]
    exact hI.2.1 (by rw [← hm]; exact hm2)
  · rw [hsb]
    exact hI.2.2

theorem foldl_write_shp (bs : List (List Nat)) (st : TarState) :
    (bs.foldl write st).streamHeaderPos = st.streamHeaderPos := by
  induction bs generalizing st with
  | nil => rfl
  | cons b rest ih =>
    rw [List.foldl_cons, ih (write st b), write_streamHeaderPos]

theorem addFileStreamingData_shp (st : TarState) (d : List Nat) :
    (addFileStreamingData st d).1.streamHeaderPos = st.streamHeaderPos := by
  simp only [addFileStreamingData]
  repeat' split
  all_goals
    first
      | rfl
      | (show (List.foldl write _ _).streamHeaderPos = _
         rw [foldl_write_shp, write_streamHeaderPos])

theorem addFileStreaming_cases (st : TarState) :
    addFileStreaming st = (st, some .illegalState) ∨
    ((addFileStreaming st).2 = none ∧
      (addFileStreaming st).1.streamHeaderPos = (st.pos : Int) ∧
      (addFileStreaming st).1.mode = st.mode ∧ st.mode = .fileOutput ∧
      (addFileStreaming st).1.streamBlock = st.streamBlock ∧
      (sizesOk st → sizesOk (addFileStreaming st).1)) := by
  simp only [addFileStreaming]
  split
  · exact Or.inl rfl
  · rename_i hmode
    split
    · rename_i e heq
      have he : e = Err.illegalState := by
        simp only [checkStateAndFlush] at heq
        split at heq
        · exact (Option.some.injEq _ _ ▸ heq).symm
        · split at heq
          · exact (Option.some.injEq _ _ ▸ heq).symm
          · cases heq
      rw [he]
      exact Or.inl rfl
    · refine Or.inr ⟨rfl, ?_, ?_, ?_, ?_, ?_⟩
      · rw [write_streamHeaderPos]
      · have h := write_pres { st with streamHeaderPos := (st.pos : Int) }
          (List.replicate 512 0) (by rw [List.length_replicate])
        exact h.2.1
      · simpa using hmode
      · have h := write_pres { st with streamHeaderPos := (st.pos : Int) }
          (List.replicate 512 0) (by rw [List.length_replicate])
        exact h.2.2.2
      · intro hs
        have h := write_pres { st with streamHeaderPos := (st.pos : Int) }
          (List.replicate 512 0) (by rw [List.length_replicate])
        exact h.1 hs

theorem streamFileComplete_err (env : Env) (st : TarState) (fn : List Nat)
    (m u g sz : Nat) (t : Int) (hsp : st.streamHeaderPos < 0) :
    streamFileComplete env st fn m u g sz t = (st, some .illegalState) := by
  simp only [streamFileComplete]
  rw [if_pos hsp]

theorem addFileStreamingData_stinv (st : TarState) (d : List Nat) (hI : StInv st) :
    StInv (addFileStreamingData st d).1 := by
  simp only [addFileStreamingData]
  split
  · exact hI
  · split
    · exact hI
    · rename_i hsp
      split
      · rename_i hbig
        have hcar := hI.2.2
        have hb1 : (st.streamBlock ++ d.take (512 - st.streamBlock.length)).length
            = 512 := by
          simp only [List.length_append, List.length_take]
          omega
        have hw := (write_pres st _ hb1).trans
          (foldl_write_pres (emitWhile (d.drop (512 - st.streamBlock.length))).1 _
            (fun b hb => emitWhileF_blocks _ _ b hb))
        refine ⟨?_, ?_, ?_⟩
        · intro s hs
          exact hw.1 hI.1 s hs
        · intro hm
          exact absurd (hI.2.1 (by rw [← hw.2.1]; exact hm)) hsp
        · show ((emitWhile (d.drop (512 - st.streamBlock.length))).2).length < 512
          rw [(emitWhile_spec _).2]
          simp only [List.length_drop]
          omega
      · rename_i hsmall
        refine ⟨hI.1, fun hm => absurd (hI.2.1 hm) hsp, ?_⟩
        show (st.streamBlock ++ d).length < 512
        simp only [List.length_append]
        omega

theorem streamFileComplete_stinv (env : Env) (st : TarState) (fn : List Nat)
    (m u g sz : Nat) (t : Int) (hI : StInv st) :
    StInv (streamFileComplete env st fn m u g sz t).1 := by
  by_cases hsp : st.streamHeaderPos < 0
  · rw [streamFileComplete_err env st fn m u g sz t hsp]
    exact hI
  · have hcar := hI.2.2
    have hST2 : StInv
        { (if 0 < st.streamBlock.length then
            write { st with streamBlock := [] }
              (st.streamBlock ++ List.replicate (512 - st.streamBlock.length) 0)
          else st) with
          pos := st.streamHeaderPos.toNat, streamHeaderPos := -1 } := by
      refine ⟨?_, fun hm => by show (-1 : Int) < 0; decide, ?_⟩
      · show sizesOk (if 0 < st.streamBlock.length then
            write { st with streamBlock := [] }
              (st.streamBlock ++ List.replicate (512 - st.streamBlock.length) 0)
          else st)
        by_cases hc : 0 < st.streamBlock.length
        · rw [if_pos hc]
          refine (write_pres { st with streamBlock := [] } _ ?_).1 hI.1
          simp only [List.length_append, List.length_replicate]
          omega
        · rw [if_neg hc]
          exact hI.1
      · show (if 0 < st.streamBlock.length then
            write { st with streamBlock := [] }
              (st.streamBlock ++ List.replicate (512 - st.streamBlock.length) 0)
          else st).streamBlock.length < 512
        by_cases hc : 0 < st.streamBlock.length
        · rw [if_pos hc]
          have h := write_pres { st with streamBlock := [] }
            (st.streamBlock ++ List.replicate (512 - st.streamBlock.length) 0)
            (by simp only [List.length_append, List.length_replicate]; omega)
          rw [h.2.2.2]
          show ([] : List Nat).length < 512
          decide
        · rw [if_neg hc]
          exact hI.2.2
    simp only [streamFileComplete]
    rw [if_neg hsp]
    split
    · rename_i st3 e heq
      have h2 := congrArg Prod.fst heq
      dsimp only at h2
      show StInv st3
      rw [← h2]
      exact (writeHeader_pres _ _ _ _ _ _ _ _ _ _ _ _).stinv hST2
    · rename_i st3 heq
      have h2 := congrArg Prod.fst heq
      dsimp only at h2
      show StInv st3
      rw [← h2]
      exact (writeHeader_pres _ _ _ _ _ _ _ _ _ _ _ _).stinv hST2

theorem checkStateAndFlush_streaming (st : TarState) (hsp : 0 ≤ st.streamHeaderPos) :
    checkStateAndFlush st = some .illegalState := by
  unfold checkStateAndFlush
  split
  · rfl
  · rfl

theorem addSymlink_blocked (env : Env) (st : TarState) (f l : List Nat) (u g : Nat)
    (t : Int) (hsp : 0 ≤ st.streamHeaderPos) :
    (addSymlink env st f l u g t).2 = some .illegalState := by
  simp only [addSymlink, checkStateAndFlush_streaming st hsp]

theorem addHardlink_blocked (env : Env) (st : TarState) (f l : List Nat) (u g : Nat)
    (t : Int) (hsp : 0 ≤ st.streamHeaderPos) :
    (addHardlink env st f l u g t).2 = some .illegalState := by
  simp only [addHardlink, checkStateAndFlush_streaming st hsp]

theorem addCharacterSpecialFile_blocked (env : Env) (st : TarState) (n : List Nat)
    (m u g sz : Nat) (t : Int) (ma mi : Nat) (hsp : 0 ≤ st.streamHeaderPos) :
    (addCharacterSpecialFile env st n m u g sz t ma mi).2 = some .illegalState := by
  simp only [addCharacterSpecialFile, checkStateAndFlush_streaming st hsp]

theorem addBlockSpecialFile_blocked (env : Env) (st : TarState) (n : List Nat)
    (m u g sz : Nat) (t : Int) (ma mi : Nat) (hsp : 0 ≤ st.streamHeaderPos) :
    (addBlockSpecialFile env st n m u g sz t ma mi).2 = some .illegalState := by
  simp only [addBlockSpecialFile, checkStateAndFlush_streaming st hsp]

theorem addFifo_blocked (env : Env) (st : TarState) (n : List Nat) (m u g : Nat)
    (t : Int) (hsp : 0 ≤ st.streamHeaderPos) :
    (addFifo env st n m u g t).2 = some .illegalState := by
  simp only [addFifo, checkStateAndFlush_streaming st hsp]

theorem addDirectory_blocked (env : Env) (st : TarState) (n : List Nat) (m u g : Nat)
    (t : Int) (hsp : 0 ≤ st.streamHeaderPos) :
    (addDirectory env st n m u g t).2 = some .illegalState := by
  simp only [addDirectory, checkStateAndFlush_streaming st hsp]

theorem addFileStreaming_blocked (st : TarState) (hsp : 0 ≤ st.streamHeaderPos) :
    (addFileStreaming st).2 = some .illegalState := by
  simp only [addFileStreaming, checkStateAndFlush_streaming st hsp]
  split
  · rfl
  · rfl

theorem addFromFilesystem1_blocked (env : Env) (st : TarState) (p : List Nat)
    (rs : Bool) (hsp : 0 ≤ st.streamHeaderPos) :
    (addFromFilesystem1 env st p rs).2 = some .illegalState := by
  simp only [addFromFilesystem1, checkStateAndFlush_streaming st hsp]

theorem addFromFilesystem2_blocked (env : Env) (st : TarState) (sp tp : List Nat)
    (rs : Bool) (hsp : 0 ≤ st.streamHeaderPos)
    (h1 : ¬ (asc "../") <:+: tp) (h2 : ¬ (asc "/..") <:+: tp) (h3 : tp ≠ asc "..")
    (h4 : tp ≠ []) (e0 : FSEntry) (hl : env.lookup sp = some e0)
    (h5 : ¬ (e0.ftype ≠ .directory ∧ tp.getLast? = some 47)) :
    (addFromFilesystem2 env st sp tp rs).2 = some .illegalState := by
  simp only [addFromFilesystem2, hl, checkStateAndFlush_streaming st hsp]
  rw [if_neg h1, if_neg h2, if_neg h3, if_neg h4, if_neg h5]

theorem addFromFilesystemRecursive1_blocked (env : Env) (st : TarState)
    (p : List Nat) (rs : Bool) (hsp : 0 ≤ st.streamHeaderPos) (e0 : FSEntry)
    (hl : env.lookup p = some e0)
    (hw : e0.ftype = .directory → ∃ q rest, env.walk p = q :: rest) :
    (addFromFilesystemRecursive1 env st p rs).2 = some .illegalState := by
  simp only [addFromFilesystemRecursive1, hl]
  split
  · exact addFromFilesystem1_blocked env st p rs hsp
  · rename_i hdir
    obtain ⟨q, rest, hqr⟩ := hw (by by_contra hc; exact hdir hc)
    rw [hqr]
    simp only [runAll]
    split
    · rename_i st1 e1 heq
      have h2 := congrArg Prod.snd heq
      rw [addFromFilesystem1_blocked env st q rs hsp] at h2
      dsimp only at h2
      rw [← h2]
    · rename_i st1 heq
      have h2 := congrArg Prod.snd heq
      rw [addFromFilesystem1_blocked env st q rs hsp] at h2
      cases h2

theorem addFromFilesystemRecursive2_blocked (env : Env) (st : TarState)
    (sp tp : List Nat) (rs : Bool) (hsp : 0 ≤ st.streamHeaderPos)
    (h1 : ¬ (asc "../") <:+: tp) (h2 : ¬ (asc "/..") <:+: tp) (h3 : tp ≠ asc "..")
    (h4 : tp ≠ []) (e0 : FSEntry) (hl : env.lookup sp = some e0)
    (hnd : e0.ftype ≠ .directory →
      (¬ (asc "../") <:+: (if tp.getLast? = some 47 then tp.dropLast else tp) ∧
       ¬ (asc "/..") <:+: (if tp.getLast? = some 47 then tp.dropLast else tp) ∧
       (if tp.getLast? = some 47 then tp.dropLast else tp) ≠ asc ".." ∧
       (if tp.getLast? = some 47 then tp.dropLast else tp) ≠ [] ∧
       ¬ (e0.ftype ≠ .directory ∧
          (if tp.getLast? = some 47 then tp.dropLast else tp).getLast? = some 47)))
    (hd : e0.ftype = .directory →
      ∃ q rest, env.walk sp = q :: rest ∧
        (¬ (asc "../") <:+:
            ((if tp.getLast? = some 47 then tp.dropLast else tp) ++ q.drop sp.length) ∧
         ¬ (asc "/..") <:+:
            ((if tp.getLast? = some 47 then tp.dropLast else tp) ++ q.drop sp.length) ∧
         ((if tp.getLast? = some 47 then tp.dropLast else tp) ++ q.drop sp.length)
            ≠ asc ".." ∧
         ((if tp.getLast? = some 47 then tp.dropLast else tp) ++ q.drop sp.length)
            ≠ [] ∧
         ∃ eq2, env.lookup q = some eq2 ∧
           ¬ (eq2.ftype ≠ .directory ∧
              ((if tp.getLast? = some 47 then tp.dropLast else tp) ++
                q.drop sp.length).getLast? = some 47))) :
    (addFromFilesystemRecursive2 env st sp tp rs).2 = some .illegalState := by
  simp only [addFromFilesystemRecursive2, hl]
  rw [if_neg h1, if_neg h2, if_neg h3, if_neg h4]
  split
  · rename_i hndir
    obtain ⟨k1, k2, k3, k4, k5⟩ := hnd hndir
    exact addFromFilesystem2_blocked env st sp _ rs hsp k1 k2 k3 k4 e0 hl k5
  · rename_i hdir
    obtain ⟨q, rest, hqr, k1, k2, k3, k4, eq2, hlq, k5⟩ :=
      hd (by by_contra hc; exact hdir hc)
    rw [hqr]
    simp only [runAll]
    split
    · rename_i st1 e1 heq
      have hq2 := congrArg Prod.snd heq
      rw [addFromFilesystem2_blocked env st q _ rs hsp k1 k2 k3 k4 eq2 hlq k5] at hq2
      dsimp only at hq2
      rw [← hq2]
    · rename_i st1 heq
      have hq2 := congrArg Prod.snd heq
      rw [addFromFilesystem2_blocked env st q _ rs hsp k1 k2 k3 k4 eq2 hlq k5] at hq2
      cases hq2

theorem reach_StInv (env : Env) (st : TarState) (g : Bool) (h : Reach env st g) :
    StInv st := by
  induction h with
  | initF typ fn =>
    exact ⟨fun s hs => absurd hs (List.not_mem_nil s),
      fun hm => by simp [initFile] at hm,
      by show ([] : List Nat).length < 512; decide⟩
  | initS typ =>
    exact ⟨fun s hs => absurd hs (List.not_mem_nil s),
      fun hm => by show (-1 : Int) < 0; decide,
      by show ([] : List Nat).length < 512; decide⟩
  | step st g c hR ih =>
    cases c with
    | fromFs1 p rs => exact (addFromFilesystem1_pres env st p rs).stinv ih
    | fromFs2 sp tp rs => exact (addFromFilesystem2_pres env st sp tp rs).stinv ih
    | fromFsRec1 p rs => exact (addFromFilesystemRecursive1_pres env st p rs).stinv ih
    | fromFsRec2 sp tp rs =>
      exact (addFromFilesystemRecursive2_pres env st sp tp rs).stinv ih
    | symlinkCall f l u gg t => exact (addSymlink_pres env st f l u gg t).stinv ih
    | hardlinkCall f l u gg t => exact (addHardlink_pres env st f l u gg t).stinv ih
    | charDev n m u gg sz t ma mi =>
      exact (addCharacterSpecialFile_pres env st n m u gg sz t ma mi).stinv ih
    | blockDev n m u gg sz t ma mi =>
      exact (addBlockSpecialFile_pres env st n m u gg sz t ma mi).stinv ih
    | fifoCall n m u gg t => exact (addFifo_pres env st n m u gg t).stinv ih
    | dirCall n m u gg t => exact (addDirectory_pres env st n m u gg t).stinv ih
    | fileStreaming =>
      show StInv (addFileStreaming st).1
      rcases addFileStreaming_cases st with hc | hc
      · rw [hc]
        exact ih
      · refine ⟨hc.2.2.2.2.2 ih.1, fun hm => ?_, ?_⟩
        · rw [hc.2.2.1, hc.2.2.2.1] at hm
          cases hm
        · rw [hc.2.2.2.2.1]
          exact ih.2.2
    | fileStreamingData d => exact addFileStreamingData_stinv st d ih
    | fileComplete n m u gg sz t =>
      exact streamFileComplete_stinv env st n m u gg sz t ih
    | closeCall => exact (close_pres st).stinv ih

theorem reach_ghost (env : Env) (st : TarState) (g : Bool) (h : Reach env st g) :
    0 ≤ st.streamHeaderPos ↔ g = true := by
  induction h with
  | initF typ fn =>
    constructor
    · intro h0
      exact absurd h0 (by show ¬ (0 : Int) ≤ -1; decide)
    · intro hf
      cases hf
  | initS typ =>
    constructor
    · intro h0
      exact absurd h0 (by show ¬ (0 : Int) ≤ -1; decide)
    · intro hf
      cases hf
  | step st g c hR ih =>
    cases c with
    | fromFs1 p rs =>
      dsimp only [applyCall, inStreamingAfter]
      rw [(addFromFilesystem1_pres env st p rs).2.2.1]
      exact ih
    | fromFs2 sp tp rs =>
      dsimp only [applyCall, inStreamingAfter]
      rw [(addFromFilesystem2_pres env st sp tp rs).2.2.1]
      exact ih
    | fromFsRec1 p rs =>
      dsimp only [applyCall, inStreamingAfter]
      rw [(addFromFilesystemRecursive1_pres env st p rs).2.2.1]
      exact ih
    | fromFsRec2 sp tp rs =>
      dsimp only [applyCall, inStreamingAfter]
      rw [(addFromFilesystemRecursive2_pres env st sp tp rs).2.2.1]
      exact ih
    | symlinkCall f l u gg t =>
      dsimp only [applyCall, inStreamingAfter]
      rw [(addSymlink_pres env st f l u gg t).2.2.1]
      exact ih
    | hardlinkCall f l u gg t =>
      dsimp only [applyCall, inStreamingAfter]
      rw [(addHardlink_pres env st f l u gg t).2.2.1]
      exact ih
    | charDev n m u gg sz t ma mi =>
      dsimp only [applyCall, inStreamingAfter]
      rw [(addCharacterSpecialFile_pres env st n m u gg sz t ma mi).2.2.1]
      exact ih
    | blockDev n m u gg sz t ma mi =>
      dsimp only [applyCall, inStreamingAfter]
      rw [(addBlockSpecialFile_pres env st n m u gg sz t ma mi).2.2.1]
      exact ih
    | fifoCall n m u gg t =>
      dsimp only [applyCall, inStreamingAfter]
      rw [(addFifo_pres env st n m u gg t).2.2.1]
      exact ih
    | dirCall n m u gg t =>
      dsimp only [applyCall, inStreamingAfter]
      rw [(addDirectory_pres env st n m u gg t).2.2.1]
      exact ih
    | fileStreaming =>
      dsimp only [applyCall, inStreamingAfter]
      rcases addFileStreaming_cases st with hc | hc
      · rw [hc]
        dsimp only
        rw [if_neg (by simp)]
        exact ih
      · rw [hc.2.1, if_pos hc.1]
        constructor
        · intro
          rfl
        · intro
          exact Int.natCast_nonneg st.pos
    | fileStreamingData d =>
      dsimp only [applyCall, inStreamingAfter]
      rw [addFileStreamingData_shp st d]
      exact ih
    | fileComplete n m u gg sz t =>
      dsimp only [applyCall, inStreamingAfter]
      by_cases hsp : st.streamHeaderPos < 0
      · rw [streamFileComplete_err env st n m u gg sz t hsp, if_neg (by omega)]
        exact ih
      · rw [streamFileComplete_clears env st n m u gg sz t hsp, if_pos (by omega)]
        constructor
        · intro h0
          exact absurd h0 (by show ¬ (0 : Int) ≤ -1; decide)
        · intro hf
          exact absurd hf (by decide)
    | closeCall =>
      dsimp only [applyCall, inStreamingAfter]
      rw [(close_pres st).2.2.1]
      exact ih

theorem writeLz4DataSizesF_mem : ∀ (fuel bp : Nat), ∀ s ∈ writeLz4DataSizesF fuel bp,
    0 < s ∧ s ≤ 512 := by
  intro fuel
  induction fuel with
  | zero =>
    intro bp s hs
    exact absurd hs (List.not_mem_nil s)
  | succ n ih =>
    intro bp s hs
    simp only [writeLz4DataSizesF] at hs
    split at hs
    · exact absurd hs (List.not_mem_nil s)
    · rename_i hbp
      rcases List.mem_cons.mp hs with h | h
      · subst h
        refine ⟨?_, min_le_right _ _⟩
        have : 0 < bp := Nat.pos_of_ne_zero hbp
        omega
      · exact ih _ s h

/-- C4 counterexample: the spec says `stream_header_pos >= 0` exactly
while a streaming entry is in progress, i.e. after `add_file_streaming`
and *before a successful* `stream_file_complete`.  Starting a streaming
entry on a writer that already stores a regular entry named `a` and
then calling `stream_file_complete` with the duplicate name `a` makes
the completion fail -- no successful completion has happened -- yet
`stream_header_pos` is back at -1 and a further
`add_file_streaming_data` is rejected with IllegalState. -/
theorem claim_C4_counterexample :
    (addFileStreaming stDupA).2 = none ∧
    (streamFileComplete envEmpty (addFileStreaming stDupA).1 (asc "a")
        420 0 0 0 0).2 ≠ none ∧
    ¬ (0 : Int) ≤ (streamFileComplete envEmpty (addFileStreaming stDupA).1 (asc "a")
        420 0 0 0 0).1.streamHeaderPos ∧
    (addFileStreamingData (streamFileComplete envEmpty (addFileStreaming stDupA).1
        (asc "a") 420 0 0 0 0).1 [98]).2 = some .illegalState := by
  exact ⟨by decide, by decide, by decide, by decide⟩

/-- C4 (amended): `stream_header_pos >= 0` holds exactly while a
streaming entry is in progress, where "in progress" ends at the next
`stream_file_complete` call made in the streaming state whether it
succeeds or fails (the ghost flag of `Reach`); and while it holds,
every admission call other than `add_file_streaming_data` and
`stream_file_complete` whose argument validations pass fails with
IllegalState. -/
theorem claim_C4 :
    (∀ (env : Env) (st : TarState) (g : Bool), Reach env st g →
      ((0 : Int) ≤ st.streamHeaderPos ↔ g = true)) ∧
    (∀ (env : Env) (st : TarState) (c : ApiCall),
      (0 : Int) ≤ st.streamHeaderPos → c.isAdmission = true →
      c.isStreamingData = false → argsOk env c →
      (applyCall env st c).2 = some .illegalState) := by
  constructor
  · intro env st g h
    exact reach_ghost env st g h
  · intro env st c hsp ha hs hok
    cases c with
    | fromFs1 p rs => exact addFromFilesystem1_blocked env st p rs hsp
    | fromFs2 sp tp rs =>
      obtain ⟨h1, h2, h3, h4, e, hl, h5⟩ := hok
      exact addFromFilesystem2_blocked env st sp tp rs hsp h1 h2 h3 h4 e hl h5
    | fromFsRec1 p rs =>
      obtain ⟨e, hl, hw⟩ := hok
      exact addFromFilesystemRecursive1_blocked env st p rs hsp e hl hw
    | fromFsRec2 sp tp rs =>
      obtain ⟨h1, h2, h3, h4, e, hl, hnd, hd⟩ := hok
      exact addFromFilesystemRecursive2_blocked env st sp tp rs hsp h1 h2 h3 h4 e hl
        hnd hd
    | symlinkCall f l u gg t => exact addSymlink_blocked env st f l u gg t hsp
    | hardlinkCall f l u gg t => exact addHardlink_blocked env st f l u gg t hsp
    | charDev n m u gg sz t ma mi =>
      exact addCharacterSpecialFile_blocked env st n m u gg sz t ma mi hsp
    | blockDev n m u gg sz t ma mi =>
      exact addBlockSpecialFile_blocked env st n m u gg sz t ma mi hsp
    | fifoCall n m u gg t => exact addFifo_blocked env st n m u gg t hsp
    | dirCall n m u gg t => exact addDirectory_blocked env st n m u gg t hsp
    | fileStreaming => exact addFileStreaming_blocked st hsp
    | fileStreamingData d => exact absurd hs (by simp [ApiCall.isStreamingData])
    | fileComplete n m u gg sz t => exact absurd hs (by simp [ApiCall.isStreamingData])
    | closeCall => exact absurd ha (by simp [ApiCall.isAdmission])

/-- C4 witness: a fresh file-mode writer after `add_file_streaming` has
`stream_header_pos = 0 >= 0` with the ghost flag set, and an
`add_symlink` admission in that state fails with IllegalState. -/
theorem claim_C4_witness :
    (((0 : Int) ≤ stC4.streamHeaderPos ↔ true = true) ∧
     (applyCall envEmpty stC4 (.symlinkCall (asc "tg") (asc "ln") 0 0 0)).2 =
       some .illegalState) :=
  ⟨claim_C4.1 envEmpty stC4 true
      (Reach.step (initFile .ustar (asc "t.tar")) false .fileStreaming
        (Reach.initF .ustar (asc "t.tar"))),
   claim_C4.2 envEmpty stC4 (.symlinkCall (asc "tg") (asc "ln") 0 0 0)
      (by decide) rfl rfl trivial⟩

/-- C8 counterexample: the Lz4 drain loop of `write_lz4_data` hands the
callback `min(remaining, 512)` bytes per invocation, so flushing a
520-byte compressed buffer invokes the callback with a short 8-byte
block, contradicting the claimed unconditional `used_bytes == 512`. -/
theorem claim_C8_counterexample :
    writeLz4DataSizes 520 = [512, 8] ∧ (8 : Nat) ≠ 512 ∧
    writeLz4DataSizes 1024 = [512, 512] := by
  exact ⟨by decide, by decide, by decide⟩

/-- C8 (amended): with compression None every callback invocation of
every reachable writer passes exactly 512 bytes; the Lz4 drain loop
passes chunks of `min(remaining, 512)` bytes, which are always positive
and at most 512 but can be shorter than 512. -/
theorem claim_C8 :
    (∀ (env : Env) (st : TarState) (g : Bool), Reach env st g →
      ∀ s ∈ st.callbackSizes, s = 512) ∧
    (∀ (n : Nat), ∀ s ∈ writeLz4DataSizes n, 0 < s ∧ s ≤ 512) := by
  constructor
  · intro env st g h
    exact (reach_StInv env st g h).1
  · intro n s hs
    exact writeLz4DataSizesF_mem n n s hs

set_option maxRecDepth 1000000 in
/-- C8 witness: after one `add_symlink` on a fresh callback-mode writer
the recorded callback sizes are `[512]`, and the claim instantiates to
that state and to the 512-byte chunk of a 520-byte Lz4 flush. -/
theorem claim_C8_witness :
    stC8.callbackSizes = [512] ∧ (512 : Nat) = 512 ∧ (0 < 512 ∧ 512 ≤ 512) :=
  ⟨by decide,
   claim_C8.1 envEmpty stC8 false
      (Reach.step (initStream .ustar) false (.symlinkCall (asc "tg") (asc "ln") 0 0 0)
        (Reach.initS .ustar)) 512 (by decide),
   claim_C8.2 520 512 (by decide)⟩

end Tarxx
